import Mathlib

/-!
# lily-http: the browser gateway of the Lily file server

A shallow embedding of `server/sort.go` and `server/server.go`, and the
properties of the gateway proved (or refuted) over it.

Conventions of the embedding:

* Go strings are Lean `String`s; a rune is the `Nat` code point of a `Char`;
  a byte is a `Nat`.
* Go `error` values are their message (`String`); `nil` is `none`.
* Everything outside the repository that a handler talks to (the Lily client
  library, the uuid library, the embedded HTML templates, the write side of
  the connection) is a field of `Env`, a record of functions over an abstract
  world state `σ`.  A handler is then a function from the request and the
  world to a `State`: the response writer, the log of every call the handler
  made with the result it got, and the world after the run.
-/

namespace LilyHttp

/-! ## server/sort.go -/

/-- The ASCII fast path of Go's `unicode.ToLower`; runes above 0x7F are looked
up in `table`, the case table of the standard library. -/
def unicodeToLower (table : Nat → Nat) (r : Nat) : Nat :=
  if r ≤ 0x7F then
    if 65 ≤ r ∧ r ≤ 90 then r + 32 else r
  else table r

/-- The conversion `[]rune(s)`. -/
def runes (s : String) : List Nat := s.data.map Char.toNat

/-- The `for idx := 0; idx < max; idx++` loop of `ByCase.Less` with the final
`return`: `n` iterations are left and `idx` is the current index. -/
def ByCase.lessLoop (toLower : Nat → Nat) (iRunes jRunes : List Nat) : Nat → Nat → Bool
  | 0, _ => decide (iRunes.length < jRunes.length)
  | n + 1, idx =>
    let ir := iRunes.getD idx 0
    let jr := jRunes.getD idx 0
    let lir := toLower ir
    let ljr := toLower jr
    if lir ≠ ljr then decide (lir < ljr)
    else if ir ≠ jr then decide (ir < jr)
    else ByCase.lessLoop toLower iRunes jRunes n (idx + 1)

/-- The body of `ByCase.Less` once the two names are converted to runes.
`toLower` is `unicode.ToLower`. -/
def ByCase.lessRunes (toLower : Nat → Nat) (iRunes jRunes : List Nat) : Bool :=
  let max := if iRunes.length > jRunes.length then jRunes.length else iRunes.length
  ByCase.lessLoop toLower iRunes jRunes max 0

/-- Directory item struct. `LastEdited` is the Unix time in seconds. -/
structure DirItem where
  Path : String
  Name : String
  LastEditor : String
  LastEdited : Int
deriving DecidableEq, Repr

/-- The comparator on two items of the slice, `s[i]` and `s[j]`. -/
def ByCase.lessItems (toLower : Nat → Nat) (a b : DirItem) : Bool :=
  ByCase.lessRunes toLower (runes a.Name) (runes b.Name)

/-- The method `ByCase.Less(i, j)`; `none` is the index-out-of-range panic. -/
def ByCase.Less (toLower : Nat → Nat) (s : List DirItem) (i j : Nat) : Option Bool :=
  match s.get? i, s.get? j with
  | some a, some b => some (ByCase.lessItems toLower a b)
  | _, _ => none

/-- The call `sort.Sort(ByCase(s))`. Go's sort is an insertion sort up to
twelve elements and a pattern-defeating quicksort above; both return the
slice ordered by `Less`, and differ from this insertion sort only in the
relative order of items that `Less` does not separate. -/
def sortByCase (toLower : Nat → Nat) (s : List DirItem) : List DirItem :=
  s.insertionSort (fun a b => ByCase.lessItems toLower b a = false)

/-! ## Strings and paths (Go standard library) -/

/-- The function `strings.Split(s, sep)` for a one-character separator, on characters. -/
def splitChars (sep : Char) : List Char → List (List Char)
  | [] => [[]]
  | c :: cs =>
    if c = sep then [] :: splitChars sep cs
    else
      match splitChars sep cs with
      | [] => [[c]]
      | h :: t => (c :: h) :: t

/-- The function `strings.Split(s, "/")`. -/
def stringsSplit (s : String) : List String :=
  (splitChars '/' s.data).map String.mk

/-- The function `strings.Join(elems, "/")`, on characters. -/
def joinChars : List (List Char) → List Char
  | [] => []
  | [e] => e
  | e :: es => e ++ '/' :: joinChars es

/-- The function `strings.Join(elems, "/")`. -/
def stringsJoin (elems : List String) : String :=
  String.mk (joinChars (elems.map String.data))

/-- One path element processed by `filepath.Clean`. The first component of
`acc` counts the leading `..` elements that cannot be backtracked, the second
holds the real elements kept so far, last first. -/
def cleanStep (rooted : Bool) (acc : Nat × List (List Char)) (elem : List Char) :
    Nat × List (List Char) :=
  if elem = [] ∨ elem = ['.'] then acc
  else if elem = ['.', '.'] then
    match acc.2 with
    | _ :: rest => (acc.1, rest)
    | [] => if rooted then acc else (acc.1 + 1, [])
  else (acc.1, elem :: acc.2)

/-- The function `filepath.Clean` where the separator is `/`, on characters. -/
def cleanChars (path : List Char) : List Char :=
  match path with
  | [] => ['.']
  | c :: _ =>
    let rooted : Bool := c = '/'
    let acc := (splitChars '/' path).foldl (cleanStep rooted) (0, [])
    let elems := List.replicate acc.1 ['.', '.'] ++ acc.2.reverse
    if rooted then '/' :: joinChars elems
    else if elems = [] then ['.'] else joinChars elems

/-- The function `filepath.Join`: empty elements are ignored and the result is
cleaned; `filepath.ToSlash` is the identity where the separator is `/`. -/
def filepathJoin (elem : List String) : String :=
  match (elem.map String.data).dropWhile (fun e => e = []) with
  | [] => ""
  | rest => String.mk (cleanChars (joinChars rest))

/-- The function `strings.HasPrefix(s, "/drive")`. -/
def hasDrivePrefix (s : String) : Bool :=
  "/drive".data.isPrefixOf s.data

/-! ## Data of server/server.go -/

/-- A value of type `interface{}` as decoded from a backend response. -/
inductive Value where
  | null
  | bool (b : Bool)
  | int64 (i : Int)
  | str (s : String)
  | bytes (b : List Nat)
  | list (l : List Value)
  | map (m : List (String × Value))

/-- The response of the Lily client library: `Code`, `String` and `Data`. -/
structure Response where
  Code : Int
  String_ : String
  Data : List (String × Value)

/-- The authentication attached to a backend request (`client.NewUserAuth`,
`client.NewSessionAuth`). -/
inductive Auth where
  | user (username password : String)
  | session (username : String) (sessionID : List Nat)
deriving DecidableEq, Repr

/-- A parameter of a backend request. -/
inductive Param where
  | str (s : String)
  | strs (l : List String)
deriving DecidableEq, Repr

/-- The request built by `client.NewRequest`; the timeout is in seconds. -/
structure BackendRequest where
  auth : Auth
  command : String
  params : List (String × Param)
  timeout : Nat
deriving DecidableEq, Repr

/-- One entry of the transfer header returned by `GetChunkRequestInfo`. -/
structure ChunkInfo where
  Name : String
  NumChunks : Int
deriving DecidableEq, Repr

/-- Drive data object. -/
structure DriveData where
  Server : String
  Name : String
  Version : String
  Drives : List Value

/-- Login page struct. -/
structure LoginPageData where
  Error : String
  Redirect : String
deriving DecidableEq, Repr

/-- Directory page struct. -/
structure DirectoryPage where
  CurrentPath : String
  Previous : String
  Dirs : List DirItem
  Files : List DirItem
deriving DecidableEq, Repr

/-- The data handed to a template. -/
inductive Page where
  | drive (d : DriveData)
  | login (d : LoginPageData)
  | dir (d : DirectoryPage)

/-- The fields of `http.Cookie` the handlers set; `Expires` is a Unix time. -/
structure Cookie where
  Name : String
  Value : String
  Expires : Option Int
deriving DecidableEq, Repr

/-- The parts of `http.Request` the handlers read: the method, `r.URL.Path`,
`r.URL.EscapedPath()`, `r.URL.Query()`, the cookies, the result of
`r.ParseForm()` and the form values. -/
structure Request where
  Method : String
  Path : String
  EscapedPath : String
  Query : List (String × String)
  Cookies : List (String × String)
  ParseFormErr : Option String
  Form : List (String × String)

/-- The method `r.Cookie(name)`: the value of the named cookie, if present. -/
def Request.Cookie (r : Request) (name : String) : Option String :=
  r.Cookies.lookup name

/-- The call `r.URL.Query().Get(key)`. -/
def Request.QueryGet (r : Request) (key : String) : String :=
  (r.Query.lookup key).getD ""

/-- The method `r.FormValue(key)`. -/
def Request.FormValue (r : Request) (key : String) : String :=
  (r.Form.lookup key).getD ""

/-- The zero UUID `uuid.Nil`; a UUID is its sixteen bytes. -/
def uuidNil : List Nat := List.replicate 16 0

/-- Everything outside the repository: the server variables, the standard
library and uuid functions, the embedded templates, the Lily client and chunk
handler, and the write side of the browser connection. Each backend or
connection call takes the world `σ` and returns its result with the new
world. -/
structure Env (σ : Type) where
  host : String
  port : Int
  toLower : Nat → Nat
  uuidParse : String → Except String (List Nat)
  MarshalBinary : List Nat → List Nat × Option String
  uuidFromBytes : List Nat → Except String (List Nat)
  uuidString : List Nat → String
  templateParse : String → Option String
  render : Page → List Nat
  Write : List Nat → σ → Option String × σ
  MakeNonChunkRequest : BackendRequest → σ → Except String Response × σ
  MakeConnection : σ → Option String × σ
  SendRequestData : BackendRequest → σ → Option String × σ
  ReceiveHeader : σ → Option String × σ
  GetChunkRequestInfo : σ → Except String (List ChunkInfo) × σ
  GetChunkInfo : σ → Except String (String × Nat) × σ
  GetChunk : Nat → σ → Except String (List Nat) × σ
  GetFooter : σ → Option String × σ
  ReceiveResponse : σ → Except String Response × σ

/-! ## The response writer (net/http) -/

/-- The entries of `w.Header()` the handlers and net/http touch. `location`
is the URL handed to `http.Redirect`, from which net/http derives the
`Location` header. -/
structure Header where
  cookies : List Cookie
  contentType : Option String
  location : Option String
deriving DecidableEq, Repr

/-- An `http.ResponseWriter`: the header map, the status line once sent
together with the headers sent with it, and the bytes handed to `Write`. -/
structure ResponseWriter where
  header : Header
  sent : Option (Nat × Header)
  body : List Nat
deriving DecidableEq, Repr

/-- A fresh response writer. -/
def ResponseWriter.new : ResponseWriter :=
  { header := { cookies := [], contentType := none, location := none }, sent := none, body := [] }

/-- The method `w.WriteHeader(code)`: only the first call sends the status line and freezes
the headers; a later call is superfluous and ignored. -/
def ResponseWriter.WriteHeader (w : ResponseWriter) (code : Nat) : ResponseWriter :=
  match w.sent with
  | some _ => w
  | none => { w with sent := some (code, w.header) }

/-- The method `w.Write(buf)`: sends status 200 first if no status was sent yet. -/
def ResponseWriter.Write (w : ResponseWriter) (buf : List Nat) : ResponseWriter :=
  let w1 := w.WriteHeader 200
  { w1 with body := w1.body ++ buf }

/-- The function `http.SetCookie(w, cookie)`. -/
def ResponseWriter.SetCookie (w : ResponseWriter) (c : Cookie) : ResponseWriter :=
  { w with header := { w.header with cookies := w.header.cookies ++ [c] } }

/-- The UTF-8 bytes of a string. -/
def utf8 (s : String) : List Nat :=
  (s.data.flatMap String.utf8EncodeChar).map UInt8.toNat

/-- The function `http.Error(w, msg, code)`: sets the content type, writes the status and
prints the message and a newline to `w`. -/
def ResponseWriter.Error (w : ResponseWriter) (msg : String) (code : Nat) : ResponseWriter :=
  let w1 := { w with header := { w.header with contentType := some "text/plain; charset=utf-8" } }
  (w1.WriteHeader code).Write (utf8 (msg ++ "\n"))

/-- The replacer `htmlEscape` of net/http. -/
def htmlEscape (s : String) : String :=
  String.mk (s.data.flatMap fun c =>
    if c = '&' then "&amp;".data
    else if c = '<' then "&lt;".data
    else if c = '>' then "&gt;".data
    else if c = '"' then "&#34;".data
    else if c = '\'' then "&#39;".data
    else [c])

/-- The function `http.Redirect(w, r, url, http.StatusFound)` for a `url` whose path part is
already clean: sets the target, writes the status, and for a GET request
without a content type prints a short HTML note to `w`. -/
def ResponseWriter.Redirect (w : ResponseWriter) (method : String) (url : String) (code : Nat) :
    ResponseWriter :=
  let hadCT := w.header.contentType.isSome
  let w1 := { w with header := { w.header with location := some url } }
  let w2 :=
    if !hadCT && (method == "GET" || method == "HEAD") then
      { w1 with header := { w1.header with contentType := some "text/html; charset=utf-8" } }
    else w1
  let w3 := w2.WriteHeader code
  if !hadCT && method == "GET" then
    w3.Write (utf8 ("<a href=\"" ++ htmlEscape url ++ "\">Found</a>.\n" ++ "\n"))
  else w3

/-- The status the browser receives: the one sent, or 200 when the handler
returned without writing. -/
def ResponseWriter.status (w : ResponseWriter) : Nat :=
  match w.sent with
  | some (code, _) => code
  | none => 200

/-- The headers the browser receives. -/
def ResponseWriter.sentHeader (w : ResponseWriter) : Header :=
  match w.sent with
  | some (_, h) => h
  | none => w.header

/-! ## The log of a handler run -/

/-- One call made by a handler, with its arguments and its result. -/
inductive Event where
  | MakeNonChunkRequest (req : BackendRequest) (res : Except String Response)
  | MakeConnection (err : Option String)
  | SendRequestData (req : BackendRequest) (err : Option String)
  | ReceiveHeader (err : Option String)
  | GetChunkRequestInfo (res : Except String (List ChunkInfo))
  | GetChunkInfo (res : Except String (String × Nat))
  | GetChunk (size : Nat) (res : Except String (List Nat))
  | GetFooter (err : Option String)
  | ReceiveResponse (res : Except String Response)
  | Write (buf : List Nat) (err : Option String)
  | SetCookie (c : Cookie)
  | Error (msg : String) (code : Nat)
  | Redirect (url : String) (code : Nat)
  | Execute (page : Page)
  | panic (msg : String)

/-- Whether the event is a call to the backend. -/
def Event.isBackend : Event → Bool
  | .MakeNonChunkRequest _ _ => true
  | .MakeConnection _ => true
  | .SendRequestData _ _ => true
  | .ReceiveHeader _ => true
  | .GetChunkRequestInfo _ => true
  | .GetChunkInfo _ => true
  | .GetChunk _ _ => true
  | .GetFooter _ => true
  | .ReceiveResponse _ => true
  | _ => false

/-- The state of a handler run: the response writer, the log and the world. -/
structure State (σ : Type) where
  w : ResponseWriter
  log : List Event
  s : σ

/-- The state a handler starts in. -/
def State.init {σ : Type} (s : σ) : State σ :=
  { w := ResponseWriter.new, log := [], s := s }

/-! ### Calls of a handler: each records itself in the log -/

section Calls
variable {σ : Type}

def State.Error (st : State σ) (msg : String) (code : Nat) : State σ :=
  { st with w := st.w.Error msg code, log := st.log ++ [Event.Error msg code] }

def State.Redirect (st : State σ) (r : Request) (url : String) (code : Nat) : State σ :=
  { st with w := st.w.Redirect r.Method url code, log := st.log ++ [Event.Redirect url code] }

def State.SetCookie (st : State σ) (c : Cookie) : State σ :=
  { st with w := st.w.SetCookie c, log := st.log ++ [Event.SetCookie c] }

/-- The call `t.Execute(w, page)`: the rendered template is written to `w`. -/
def State.Execute (env : Env σ) (st : State σ) (page : Page) : State σ :=
  { st with w := st.w.Write (env.render page), log := st.log ++ [Event.Execute page] }

/-- A run-time panic (a failed type assertion or index): the handler stops. -/
def State.panic (st : State σ) (msg : String) : State σ :=
  { st with log := st.log ++ [Event.panic msg] }

/-- The call `w.Write(buf)` by the handler: the bytes are handed to the writer and
the connection decides whether the call reports an error. -/
def State.Write (env : Env σ) (st : State σ) (buf : List Nat) : Option String × State σ :=
  let res := env.Write buf st.s
  (res.1, { w := st.w.Write buf, log := st.log ++ [Event.Write buf res.1], s := res.2 })

def State.MakeNonChunkRequest (env : Env σ) (st : State σ) (req : BackendRequest) :
    Except String Response × State σ :=
  let res := env.MakeNonChunkRequest req st.s
  (res.1, { st with log := st.log ++ [Event.MakeNonChunkRequest req res.1], s := res.2 })

def State.MakeConnection (env : Env σ) (st : State σ) : Option String × State σ :=
  let res := env.MakeConnection st.s
  (res.1, { st with log := st.log ++ [Event.MakeConnection res.1], s := res.2 })

def State.SendRequestData (env : Env σ) (st : State σ) (req : BackendRequest) :
    Option String × State σ :=
  let res := env.SendRequestData req st.s
  (res.1, { st with log := st.log ++ [Event.SendRequestData req res.1], s := res.2 })

def State.ReceiveHeader (env : Env σ) (st : State σ) : Option String × State σ :=
  let res := env.ReceiveHeader st.s
  (res.1, { st with log := st.log ++ [Event.ReceiveHeader res.1], s := res.2 })

def State.GetChunkRequestInfo (env : Env σ) (st : State σ) :
    Except String (List ChunkInfo) × State σ :=
  let res := env.GetChunkRequestInfo st.s
  (res.1, { st with log := st.log ++ [Event.GetChunkRequestInfo res.1], s := res.2 })

def State.GetChunkInfo (env : Env σ) (st : State σ) : Except String (String × Nat) × State σ :=
  let res := env.GetChunkInfo st.s
  (res.1, { st with log := st.log ++ [Event.GetChunkInfo res.1], s := res.2 })

/-- The calls `buf := make([]byte, size)` and `ch.GetChunk(&buf, ...)`: the result is the
buffer after the call. -/
def State.GetChunk (env : Env σ) (st : State σ) (size : Nat) :
    Except String (List Nat) × State σ :=
  let res := env.GetChunk size st.s
  (res.1, { st with log := st.log ++ [Event.GetChunk size res.1], s := res.2 })

def State.GetFooter (env : Env σ) (st : State σ) : Option String × State σ :=
  let res := env.GetFooter st.s
  (res.1, { st with log := st.log ++ [Event.GetFooter res.1], s := res.2 })

def State.ReceiveResponse (env : Env σ) (st : State σ) : Except String Response × State σ :=
  let res := env.ReceiveResponse st.s
  (res.1, { st with log := st.log ++ [Event.ReceiveResponse res.1], s := res.2 })

/-! ## server/server.go -/

/-- Get authentication: the username, the session identifier and the error. -/
def getAuth (env : Env σ) (r : Request) : String × List Nat × Option String :=
  match r.Cookie "username" with
  | none => ("", uuidNil, some "no username")
  | some username =>
    match r.Cookie "sessionID" with
    | none => ("", uuidNil, some "no session id")
    | some id =>
      match env.uuidParse id with
      | .error err => ("", uuidNil, some err)
      | .ok sid => (username, sid, none)

/-- The text `fmt.Sprintf("failed: %d %s", resp.Code, resp.String)`. -/
def failedText (resp : Response) : String :=
  "failed: " ++ toString resp.Code ++ " " ++ resp.String_

/-- Render default page: the `driveName == ""` branch of `driveHandler`. -/
def driveHandler.info (env : Env σ) (r : Request) (st : State σ) (username : String)
    (bytes : List Nat) : State σ :=
  let res := st.MakeNonChunkRequest env ⟨Auth.session username bytes, "info", [], 5⟩
  match res.1 with
  | .error err => res.2.Error ("connection error: " ++ err) 500
  | .ok resp =>
    if resp.Code ≠ 0 then
      if resp.Code = 6 then res.2.Redirect r ("/login?redirect=" ++ r.Path) 302
      else res.2.Error (failedText resp) 500
    else
      match resp.Data.lookup "drives" with
      | some (Value.list drives) =>
        match env.templateParse "static/drive.html" with
        | some err => res.2.Error ("template error: " ++ err) 500
        | none =>
          match resp.Data.lookup "name", resp.Data.lookup "version" with
          | some (Value.str name), some (Value.str version) =>
            res.2.Execute env (Page.drive
              { Server := env.host ++ ":" ++ toString env.port, Name := name,
                Version := version, Drives := drives })
          | _, _ => res.2.panic "interface conversion"
      | _ => res.2.panic "interface conversion"

/-- The inner loop `for n := 0; n < chunkInfo[i].NumChunks; n++`, with `n` iterations
left. `Except.error` carries the state in which the handler returned. -/
def driveHandler.relayChunks (env : Env σ) : Nat → State σ → Except (State σ) (State σ)
  | 0, st => .ok st
  | n + 1, st =>
    let info := st.GetChunkInfo env
    match info.1 with
    | .error err => .error (info.2.Error ("connection error: " ++ err) 500)
    | .ok (_, size) =>
      let chunk := info.2.GetChunk env size
      match chunk.1 with
      | .error err => .error (chunk.2.Error ("connection error: " ++ err) 500)
      | .ok buf =>
        let wr := chunk.2.Write env buf
        match wr.1 with
        | some err => .error (wr.2.Error ("connection error: " ++ err) 500)
        | none => driveHandler.relayChunks env n wr.2

/-- The outer loop `for i := range chunkInfo`. -/
def driveHandler.relay (env : Env σ) : List ChunkInfo → State σ → Except (State σ) (State σ)
  | [], st => .ok st
  | ci :: rest, st =>
    match driveHandler.relayChunks env ci.NumChunks.toNat st with
    | .error st1 => .error st1
    | .ok st1 => driveHandler.relay env rest st1

/-- The footer and the final response of a transfer (after the loops). The
error printed for the footer is the variable `err` of the enclosing block,
which is nil there. -/
def driveHandler.finish (env : Env σ) (r : Request) (st : State σ) : State σ :=
  let footer := st.GetFooter env
  match footer.1 with
  | some _ => footer.2.Error "connection error: <nil>" 500
  | none =>
    let res := footer.2.ReceiveResponse env
    match res.1 with
    | .error err => res.2.Error ("connection error: " ++ err) 500
    | .ok resp =>
      if resp.Code ≠ 0 then
        if resp.Code = 6 then res.2.Redirect r ("/login?redirect=" ++ r.Path) 302
        else res.2.Error (failedText resp) 500
      else res.2

/-- Display a file: the `isFile` branch of `driveHandler`. -/
def driveHandler.file (env : Env σ) (r : Request) (st : State σ) (username : String)
    (bytes : List Nat) (driveName : String) (path : List String) : State σ :=
  let conn := st.MakeConnection env
  match conn.1 with
  | some err => conn.2.Error ("connection error: " ++ err) 500
  | none =>
    let stream := conn.2.SendRequestData env
      ⟨Auth.session username bytes, "readfiles",
        [("paths", Param.strs [stringsJoin path]), ("drive", Param.str driveName)], 5⟩
    match stream.1 with
    | some err => stream.2.Error ("connection error: " ++ err) 500
    | none =>
      let hdr := stream.2.ReceiveHeader env
      match hdr.1 with
      | some err => hdr.2.Error ("connection error: " ++ err) 500
      | none =>
        let info := hdr.2.GetChunkRequestInfo env
        match info.1 with
        | .error err => info.2.Error ("connection error: " ++ err) 500
        | .ok chunkInfo =>
          match driveHandler.relay env chunkInfo info.2 with
          | .error st1 => st1
          | .ok st1 => driveHandler.finish env r st1

/-- One iteration of the loop over the listing: the item and which list it
joins; `none` is a failed type assertion. -/
def dirItem (escapedPath : String) (v : Value) : Option (Bool × DirItem) :=
  match v with
  | Value.map m =>
    match m.lookup "isfile", m.lookup "name", m.lookup "lasteditor", m.lookup "lastedittime" with
    | some (Value.bool isFile), some (Value.str name), some (Value.str editor),
        some (Value.int64 t) =>
      some (isFile,
        { Name := name, Path := filepathJoin [escapedPath, name], LastEditor := editor,
          LastEdited := t })
    | _, _, _, _ => none
  | _ => none

/-- The loop `for i := range pathStatus`. -/
def fillItems (escapedPath : String) : List Value → DirectoryPage → Option DirectoryPage
  | [], listDir => some listDir
  | v :: rest, listDir =>
    match dirItem escapedPath v with
    | none => none
    | some (isFile, pathInfo) =>
      if isFile then
        fillItems escapedPath rest { listDir with Files := listDir.Files ++ [pathInfo] }
      else
        fillItems escapedPath rest { listDir with Dirs := listDir.Dirs ++ [pathInfo] }

/-- The directory page `driveHandler` builds from the escaped URL path and
the listing, sorted; `none` is a failed type assertion. -/
def directoryPage (toLower : Nat → Nat) (escapedPath : String) (pathStatus : List Value) :
    Option DirectoryPage :=
  let split := stringsSplit escapedPath
  let listDir : DirectoryPage :=
    { CurrentPath := escapedPath, Files := [], Dirs := [],
      Previous := filepathJoin (split.take (split.length - 1)) }
  match fillItems escapedPath pathStatus listDir with
  | none => none
  | some filled =>
    some { filled with Dirs := sortByCase toLower filled.Dirs,
                       Files := sortByCase toLower filled.Files }

/-- Display a directory: the `else` branch of `driveHandler`. -/
def driveHandler.dir (env : Env σ) (r : Request) (st : State σ) (username : String)
    (bytes : List Nat) (driveName : String) (path : List String) : State σ :=
  let res := st.MakeNonChunkRequest env
    ⟨Auth.session username bytes, "listdir",
      [("drive", Param.str driveName), ("path", Param.str (stringsJoin path))], 5⟩
  match res.1 with
  | .error err => res.2.Error ("connection error: " ++ err) 500
  | .ok resp =>
    if resp.Code ≠ 0 then
      if resp.Code = 6 then res.2.Redirect r ("/login?redirect=" ++ r.Path) 302
      else res.2.Error (failedText resp) 500
    else
      match resp.Data.lookup "list" with
      | some (Value.list pathStatus) =>
        match directoryPage env.toLower r.EscapedPath pathStatus with
        | none => res.2.panic "interface conversion"
        | some listDir =>
          match env.templateParse "static/dir.html" with
          | some err => res.2.Error ("template error: " ++ err) 500
          | none => res.2.Execute env (Page.dir listDir)
      | _ => res.2.panic "interface conversion"

/-- The entry `resp.Data["stat"].(map[string]interface{})[joined].(map[string]interface{})`;
`none` is a failed type assertion. -/
def statEntry (resp : Response) (joined : String) : Option (List (String × Value)) :=
  match resp.Data.lookup "stat" with
  | some (Value.map m) =>
    match m.lookup joined with
    | some (Value.map entry) => some entry
    | _ => none
  | _ => none

/-- Display directory or file: the `len(splitPath) > 0` branch of `driveHandler`. -/
def driveHandler.stat (env : Env σ) (r : Request) (st : State σ) (username : String)
    (bytes : List Nat) (driveName : String) (path : List String) : State σ :=
  let res := st.MakeNonChunkRequest env
    ⟨Auth.session username bytes, "stat",
      [("paths", Param.strs [stringsJoin path]), ("drive", Param.str driveName)], 5⟩
  match res.1 with
  | .error err => res.2.Error ("connection error: " ++ err) 500
  | .ok resp =>
    if resp.Code ≠ 0 then
      if resp.Code = 6 then res.2.Redirect r ("/login?redirect=" ++ r.Path) 302
      else res.2.Error (failedText resp) 500
    else
      match statEntry resp (stringsJoin path) with
      | none => res.2.panic "interface conversion"
      | some entry =>
        match entry.lookup "isfile" with
        | some (Value.bool isFile) =>
          let «exists» : Bool :=
            match entry.lookup "exists" with
            | some (Value.bool b) => b
            | _ => false
          if !«exists» then res.2.Error "does not exist" 404
          else if isFile then driveHandler.file env r res.2 username bytes driveName path
          else driveHandler.dir env r res.2 username bytes driveName path
        | _ => res.2.panic "interface conversion"

/-- Home page. -/
def homeHandler (_env : Env σ) (r : Request) (s : σ) : State σ :=
  (State.init s).Redirect r "/drive" 302

/-- Drive/filesystem page. -/
def driveHandler (env : Env σ) (r : Request) (s : σ) : State σ :=
  let st : State σ := State.init s
  if hasDrivePrefix r.Path = false then st.Error "404 not found." 404
  else if (stringsSplit r.Path).length < 2 then st.panic "slice bounds out of range"
  else
    match (stringsSplit r.Path).drop 2 with
    | [] => st.panic "index out of range"
    | driveName :: path =>
      let auth := getAuth env r
      match auth.2.2 with
      | some _ => st.Redirect r "/login?redirect=/drive" 302
      | none =>
        let mb := env.MarshalBinary auth.2.1
        match mb.2 with
        | some err => st.Error ("error: " ++ err) 500
        | none =>
          if driveName = "" then driveHandler.info env r st auth.1 mb.1
          else if (driveName :: path).length > 0 then
            driveHandler.stat env r st auth.1 mb.1 driveName path
          else st

/-- Handle requests to the login page. -/
def loginHandler (env : Env σ) (r : Request) (s : σ) : State σ :=
  let st : State σ := State.init s
  if r.Path ≠ "/login" then st.Error "404 not found." 404
  else if r.Method = "GET" then
    match env.templateParse "static/login.html" with
    | some err => st.Error ("template error: " ++ err) 500
    | none =>
      st.Execute env (Page.login
        { Error := r.QueryGet "error", Redirect := r.QueryGet "redirect" })
  else if r.Method = "POST" then
    match r.ParseFormErr with
    | some err => st.Error ("error: " ++ err) 500
    | none =>
      let username := r.FormValue "username"
      let password := r.FormValue "password"
      let res := st.MakeNonChunkRequest env ⟨Auth.user username password, "login", [], 5⟩
      match res.1 with
      | .error err => res.2.Error ("connection error: " ++ err) 500
      | .ok resp =>
        if resp.Code ≠ 0 then
          if resp.Code = 6 then
            res.2.Redirect r ("/login?redirect=" ++ r.Path ++ "&error=" ++ resp.String_) 302
          else res.2.Error (failedText resp) 500
        else
          match resp.Data.lookup "id" with
          | some (Value.bytes id) =>
            match env.uuidFromBytes id with
            | .error err => res.2.Error ("error: " ++ err) 500
            | .ok uuid =>
              ((res.2.SetCookie { Name := "username", Value := username, Expires := none }).SetCookie
                { Name := "sessionID", Value := env.uuidString uuid, Expires := none }).Redirect
                r (r.QueryGet "redirect") 302
          | _ => res.2.panic "interface conversion"
  else st.Error "method not allowed" 405

/-- The two expired cookies `logoutHandler` sets, `Expires: time.Unix(0, 0)`. -/
def State.clearCookies (st : State σ) : State σ :=
  (st.SetCookie { Name := "username", Value := "", Expires := some 0 }).SetCookie
    { Name := "sessionID", Value := "", Expires := some 0 }

/-- Handle requests to the logout page. The two `if err != nil` blocks that
follow `getAuth` and `MarshalBinary` do not return: the handler goes on. -/
def logoutHandler (env : Env σ) (r : Request) (s : σ) : State σ :=
  let st : State σ := State.init s
  if r.Path ≠ "/logout" then st.Error "404 not found." 404
  else
    let auth := getAuth env r
    let st1 :=
      match auth.2.2 with
      | some err => st.clearCookies.Error ("error: " ++ err) 500
      | none => st
    let mb := env.MarshalBinary auth.2.1
    let st2 :=
      match mb.2 with
      | some err => st1.clearCookies.Error ("error: " ++ err) 500
      | none => st1
    let res := st2.MakeNonChunkRequest env ⟨Auth.session auth.1 mb.1, "logout", [], 5⟩
    match res.1 with
    | .error err => res.2.Error ("connection error: " ++ err) 500
    | .ok resp =>
      if resp.Code ≠ 0 then
        if resp.Code = 6 then res.2.Redirect r "/login?error=Logged+out+successfully." 302
        else res.2.Error (failedText resp) 500
      else res.2.clearCookies.Redirect r "/login?error=Logged+out+successfully." 302

end Calls

/-! ## Notions of the specification -/

/-- The entries named "Banana", "apple", "Apple", "banana2", in that order. -/
def exampleEntries : List DirItem :=
  [ { Path := "/drive/d/Banana", Name := "Banana", LastEditor := "ann", LastEdited := 0 },
    { Path := "/drive/d/apple", Name := "apple", LastEditor := "ann", LastEdited := 0 },
    { Path := "/drive/d/Apple", Name := "Apple", LastEditor := "ann", LastEdited := 0 },
    { Path := "/drive/d/banana2", Name := "banana2", LastEditor := "ann", LastEdited := 0 } ]

/-- The lowercased form of a name. -/
def lowercase (toLower : Nat → Nat) (a : List Nat) : List Nat := a.map toLower

/-- Lexicographic rune order, a proper prefix first. -/
def lexLess : List Nat → List Nat → Bool
  | [], [] => false
  | [], _ :: _ => true
  | _ :: _, [] => false
  | x :: a, y :: b => if x < y then true else if y < x then false else lexLess a b


/-- The value of a query parameter of a URL, undecoded: the text after the
first `?` is cut at every `&` and each piece at its first `=`. -/
def queryParam (url key : String) : Option String :=
  ((splitChars '&' ((url.data.dropWhile (fun c => c ≠ '?')).drop 1)).map fun kv =>
    (String.mk (kv.takeWhile (fun c => c ≠ '=')),
      String.mk ((kv.dropWhile (fun c => c ≠ '=')).drop 1))).lookup key

/-! ## A scripted world, to run the handlers on concrete inputs -/

/-- One scripted result of a backend call. -/
inductive Reply where
  | err (e : String)
  | ok
  | response (code : Int) (msg : String) (data : List (String × Value))
  | infos (l : List ChunkInfo)
  | chunkInfo (name : String) (size : Nat)
  | chunk (buf : List Nat)

/-- The next scripted result, for a call that returns only an error. -/
def Reply.nextErr : List Reply → Option String × List Reply
  | Reply.ok :: rest => (none, rest)
  | Reply.err e :: rest => (some e, rest)
  | _ => (some "EOF", [])

/-- The next scripted result, for a call that returns a response. -/
def Reply.nextResponse : List Reply → Except String Response × List Reply
  | Reply.response c m d :: rest => (.ok ⟨c, m, d⟩, rest)
  | Reply.err e :: rest => (.error e, rest)
  | _ => (.error "EOF", [])

/-- A world in which the backend answers each call with the next result of a
script (a result of the wrong kind or the end of the script is an error), a
session identifier is well formed when it has 36 characters, the templates
parse and render to nothing, and the browser accepts every write. -/
def scriptEnv : Env (List Reply) where
  host := "localhost"
  port := 8080
  toLower := unicodeToLower id
  uuidParse := fun s =>
    if s.length = 36 then .ok (List.replicate 16 1) else .error "invalid UUID length"
  MarshalBinary := fun u => (u, none)
  uuidFromBytes := fun b => if b.length = 16 then .ok b else .error "invalid UUID"
  uuidString := fun _ => "01010101-0101-0101-0101-010101010101"
  templateParse := fun _ => none
  render := fun _ => []
  Write := fun _ s => (none, s)
  MakeNonChunkRequest := fun _ s => Reply.nextResponse s
  MakeConnection := fun s => Reply.nextErr s
  SendRequestData := fun _ s => Reply.nextErr s
  ReceiveHeader := fun s => Reply.nextErr s
  GetChunkRequestInfo := fun s =>
    match s with
    | Reply.infos l :: rest => (.ok l, rest)
    | Reply.err e :: rest => (.error e, rest)
    | _ => (.error "EOF", [])
  GetChunkInfo := fun s =>
    match s with
    | Reply.chunkInfo n sz :: rest => (.ok (n, sz), rest)
    | Reply.err e :: rest => (.error e, rest)
    | _ => (.error "EOF", [])
  GetChunk := fun size s =>
    match s with
    | Reply.chunk buf :: rest =>
      (.ok (buf.take size ++ List.replicate (size - buf.length) 0), rest)
    | Reply.err e :: rest => (.error e, rest)
    | _ => (.error "EOF", [])
  GetFooter := fun s => Reply.nextErr s
  ReceiveResponse := fun s => Reply.nextResponse s

/-- A request for `path` with the given method and cookies. -/
def request (method path : String) (cookies : List (String × String)) : Request :=
  { Method := method, Path := path, EscapedPath := path, Query := [], Cookies := cookies,
    ParseFormErr := none, Form := [] }

/-- The cookies of a logged-in browser. -/
def sessionCookies : List (String × String) :=
  [("username", "ann"), ("sessionID", "01010101-0101-0101-0101-010101010101")]

/-- The answer to `stat` for an existing file `a.txt`. -/
def statFile : Reply :=
  Reply.response 0 ""
    [("stat", Value.map
      [("a.txt", Value.map [("exists", Value.bool true), ("isfile", Value.bool true)])])]

/-- A plain path element, one that `filepath.Clean` keeps as it is: not
empty, without `/`, and neither `.` nor `..`. -/
def plainChars (e : List Char) : Prop :=
  e ≠ [] ∧ '/' ∉ e ∧ e ≠ ['.'] ∧ e ≠ ['.', '.']

instance (e : List Char) : Decidable (plainChars e) := by
  unfold plainChars; infer_instance

/-- A plain path segment or entry name. -/
def plainName (s : String) : Prop := plainChars s.data

instance (s : String) : Decidable (plainName s) := by
  unfold plainName; infer_instance

/-- The URL path `/drive/<s1>/.../<sn>`. -/
def drivePath (segs : List String) : String :=
  "/" ++ stringsJoin ("drive" :: segs)

/-- A listing with the file `b.txt` and the directory `a`. -/
def exampleListing : List Value :=
  [Value.map [("isfile", Value.bool true), ("name", Value.str "b.txt"),
     ("lasteditor", Value.str "ann"), ("lastedittime", Value.int64 7)],
   Value.map [("isfile", Value.bool false), ("name", Value.str "a"),
     ("lasteditor", Value.str "bob"), ("lastedittime", Value.int64 9)]]

/-- The directory page of `/drive/d/x` for `exampleListing`. -/
def examplePage : DirectoryPage :=
  { CurrentPath := "/drive/d/x", Previous := "drive/d",
    Dirs := [{ Path := "/drive/d/x/a", Name := "a", LastEditor := "bob", LastEdited := 9 }],
    Files := [{ Path := "/drive/d/x/b.txt", Name := "b.txt", LastEditor := "ann",
                LastEdited := 7 }] }

/-- The expired `username` cookie. -/
def expiredUsername : Cookie := { Name := "username", Value := "", Expires := some 0 }

/-- The expired `sessionID` cookie. -/
def expiredSessionID : Cookie := { Name := "sessionID", Value := "", Expires := some 0 }

/-- The request of the logout exchange, for the session `getAuth` found. -/
def logoutRequest {σ : Type} (env : Env σ) (r : Request) : BackendRequest :=
  ⟨Auth.session (getAuth env r).1 (env.MarshalBinary (getAuth env r).2.1).1, "logout", [], 5⟩

/-! ## Observing a transfer in the log -/

/-- One chunk frame as the handler received it: the name and size announced
by `GetChunkInfo` and the buffer filled by `GetChunk`. -/
structure Frame where
  name : String
  size : Nat
  payload : List Nat
deriving DecidableEq, Repr

/-- The calls that consume and relay one frame: one `GetChunkInfo`, one
`GetChunk` for the announced size, one `Write` of the buffer. -/
def Frame.events (f : Frame) : List Event :=
  [Event.GetChunkInfo (.ok (f.name, f.size)), Event.GetChunk f.size (.ok f.payload),
    Event.Write f.payload none]

/-- Whether the event belongs to the relay of frames. -/
def Event.isFrame : Event → Bool
  | .GetChunkInfo _ => true
  | .GetChunk _ _ => true
  | .Write _ _ => true
  | _ => false

/-- The payload the event received from the backend, if it is a successful
`GetChunk`. -/
def Event.received : Event → List Nat
  | .GetChunk _ (.ok buf) => buf
  | _ => []

/-- The size asked by a successful `GetChunk`, the size of the frame. -/
def Event.receivedSize : Event → Nat
  | .GetChunk size (.ok _) => size
  | _ => 0

/-- The bytes the event handed to the sink with `w.Write`. -/
def Event.written : Event → List Nat
  | .Write buf _ => buf
  | _ => []

/-- The text a terminal call prints to the sink after a transfer has begun:
the message of `http.Error`, or the note of `http.Redirect` for a GET request. -/
def Event.note (method : String) : Event → List Nat
  | .Error msg _ => utf8 (msg ++ "\n")
  | .Redirect url _ =>
    if method = "GET" then utf8 ("<a href=\"" ++ htmlEscape url ++ "\">Found</a>.\n" ++ "\n")
    else []
  | _ => []

/-- The writer after the payloads of the frames were written in order. -/
def writeFrames (w : ResponseWriter) (fs : List Frame) : ResponseWriter :=
  fs.foldl (fun w f => w.Write f.payload) w

/-- The frame is an answer of the backend: `GetChunk` returned its payload
for its size in some world. -/
def Frame.fromBackend {σ : Type} (env : Env σ) (f : Frame) : Prop :=
  ∃ s : σ, (env.GetChunk f.size s).1 = .ok f.payload

/-- The calls of a frame whose relay fails with the error `err`, with the
buffer handed to the sink before the failure, if any: `GetChunkInfo` fails,
or `GetChunk` fails, or the write of the received buffer fails. -/
inductive FailedFrame {σ : Type} (env : Env σ) (err : String) :
    List Event → Option Frame → Prop where
  | info : FailedFrame env err [Event.GetChunkInfo (.error err)] none
  | chunk (name : String) (size : Nat) :
      FailedFrame env err
        [Event.GetChunkInfo (.ok (name, size)), Event.GetChunk size (.error err)] none
  | write (f : Frame) (h : f.fromBackend env) :
      FailedFrame env err
        [Event.GetChunkInfo (.ok (f.name, f.size)), Event.GetChunk f.size (.ok f.payload),
          Event.Write f.payload (some err)] (some f)

/-- The effect of a logged call on the response writer. -/
def Event.apply (method : String) (w : ResponseWriter) : Event → ResponseWriter
  | .Write buf _ => w.Write buf
  | .SetCookie c => w.SetCookie c
  | .Error msg code => w.Error msg code
  | .Redirect url code => w.Redirect method url code
  | _ => w

/-- The request of a transfer: `readfiles` for the path in the drive. -/
def readfilesRequest (username : String) (bytes : List Nat) (driveName : String)
    (path : List String) : BackendRequest :=
  ⟨Auth.session username bytes, "readfiles",
    [("paths", Param.strs [stringsJoin path]), ("drive", Param.str driveName)], 5⟩

/-- The calls that open a transfer and receive its header `infos`. -/
def transferSetup (req : BackendRequest) (infos : List ChunkInfo) : List Event :=
  [Event.MakeConnection none, Event.SendRequestData req none, Event.ReceiveHeader none,
    Event.GetChunkRequestInfo (.ok infos)]

/-- The ways the opening of a transfer fails with the error `err`. -/
inductive SetupFailure (req : BackendRequest) (err : String) : List Event → Prop where
  | conn : SetupFailure req err [Event.MakeConnection (some err)]
  | send : SetupFailure req err [Event.MakeConnection none, Event.SendRequestData req (some err)]
  | header : SetupFailure req err
      [Event.MakeConnection none, Event.SendRequestData req none, Event.ReceiveHeader (some err)]
  | info : SetupFailure req err
      [Event.MakeConnection none, Event.SendRequestData req none, Event.ReceiveHeader none,
        Event.GetChunkRequestInfo (.error err)]

/-- The ways a transfer ends once the relay loops ran to their end: the
footer and final-response calls with the terminal call of the handler. -/
inductive Ending (r : Request) : List Event → Prop where
  | footer (err : String) :
      Ending r [Event.GetFooter (some err), Event.Error "connection error: <nil>" 500]
  | response (err : String) :
      Ending r [Event.GetFooter none, Event.ReceiveResponse (.error err),
        Event.Error ("connection error: " ++ err) 500]
  | reauth (resp : Response) (h : resp.Code = 6) :
      Ending r [Event.GetFooter none, Event.ReceiveResponse (.ok resp),
        Event.Redirect ("/login?redirect=" ++ r.Path) 302]
  | failed (resp : Response) (h0 : resp.Code ≠ 0) (h6 : resp.Code ≠ 6) :
      Ending r [Event.GetFooter none, Event.ReceiveResponse (.ok resp),
        Event.Error (failedText resp) 500]
  | done (resp : Response) (h : resp.Code = 0) :
      Ending r [Event.GetFooter none, Event.ReceiveResponse (.ok resp)]

/-- Whether the event is a terminal failure of the handler: an error
response, a redirect or a panic. -/
def Event.isFailure : Event → Bool
  | .Error _ _ => true
  | .Redirect _ _ => true
  | .panic _ => true
  | _ => false

/-- A transfer is successful: the handler asked the backend for the file and
returned without an error response, a redirect or a panic. -/
def transferSucceeded (log : List Event) : Prop :=
  (∃ req err, Event.SendRequestData req err ∈ log) ∧ ∀ e ∈ log, e.isFailure = false

/-- Whether the event is a call of the streaming exchange: the connection,
the request, the header, the frames, the footer or the final response. -/
def Event.isStream : Event → Bool
  | .MakeConnection _ => true
  | .SendRequestData _ _ => true
  | .ReceiveHeader _ => true
  | .GetChunkRequestInfo _ => true
  | .GetChunkInfo _ => true
  | .GetChunk _ _ => true
  | .GetFooter _ => true
  | .ReceiveResponse _ => true
  | .Write _ _ => true
  | _ => false

/-- The request of the `stat` exchange. -/
def statRequest (username : String) (bytes : List Nat) (driveName : String)
    (path : List String) : BackendRequest :=
  ⟨Auth.session username bytes, "stat",
    [("paths", Param.strs [stringsJoin path]), ("drive", Param.str driveName)], 5⟩

/-- Whether the event is a call of `http.Error`. -/
def Event.isError : Event → Bool
  | .Error _ _ => true
  | _ => false

/-- Whether the event is a non-streaming exchange answered with code 6. -/
def Event.code6 : Event → Bool
  | .MakeNonChunkRequest _ (.ok resp) => decide (resp.Code = 6)
  | _ => false

/-- The outcome the specification asks for after a code 6: the response is
the redirect 302 to `url` and the handler called `http.Error` nowhere. -/
def redirectsTo {σ : Type} (st : State σ) (url : String) : Prop :=
  st.w.status = 302 ∧ st.w.sentHeader.location = some url ∧ ∀ e ∈ st.log, e.isError = false

/-- A non-streaming exchange of the run was answered with code 6. -/
def answeredCode6 (log : List Event) : Prop :=
  ∃ e ∈ log, e.code6 = true

/-- The view a URL names: the text before its first `?`. -/
def urlView (url : String) : String :=
  String.mk (url.data.takeWhile (fun c => c ≠ '?'))

/-- Whether a path reads back unchanged as a query value when it is joined
to a query unescaped: it holds none of `&` and `;` (which separate
parameters), `#` (which ends the query), `%` and `+` (which the reader
decodes). -/
def querySafe (p : String) : Bool :=
  p.data.all fun c => c ≠ '&' && c ≠ ';' && c ≠ '#' && c ≠ '%' && c ≠ '+'

/-- The response is the redirect 302 to the login view, whatever its query,
and the handler called `http.Error` nowhere. -/
def redirectsToLogin {σ : Type} (st : State σ) : Prop :=
  st.w.status = 302 ∧
  (∃ url, st.w.sentHeader.location = some url ∧ urlView url = "/login") ∧
  ∀ e ∈ st.log, e.isError = false

/-- The `redirect` query parameter of the target of the response, as
`r.URL.Query().Get("redirect")` of `loginHandler` reads it back. -/
def redirectParam {σ : Type} (st : State σ) : Option String :=
  st.w.sentHeader.location.bind fun url => queryParam url "redirect"

/-- The directory page handed to the template, if the event is the
execution of the directory template. -/
def Event.dirPage : Event → Option DirectoryPage
  | .Execute (Page.dir page) => some page
  | _ => none

/-- The answer to `stat` for an existing directory `x`. -/
def statDirX : Reply :=
  Reply.response 0 ""
    [("stat", Value.map
      [("x", Value.map [("exists", Value.bool true), ("isfile", Value.bool false)])])]
/-! ## The comparator: lemmas -/

theorem lessLoop_cons (toLower : Nat → Nat) (x y : Nat) (a b : List Nat) (n k : Nat) :
    ByCase.lessLoop toLower (x :: a) (y :: b) n (k + 1) = ByCase.lessLoop toLower a b n k := by
  induction n generalizing k with
  | zero => simp [ByCase.lessLoop]
  | succ n ih => simp only [ByCase.lessLoop, List.getD_cons_succ, ih]

theorem lessRunes_nil_left (toLower : Nat → Nat) (b : List Nat) :
    ByCase.lessRunes toLower [] b = decide (0 < b.length) := by
  simp [ByCase.lessRunes, ByCase.lessLoop]

theorem lessRunes_nil_right (toLower : Nat → Nat) (a : List Nat) :
    ByCase.lessRunes toLower a [] = false := by
  cases a <;> simp [ByCase.lessRunes, ByCase.lessLoop]

/-- The comparator by recursion on the two names. -/
theorem lessRunes_cons (toLower : Nat → Nat) (x y : Nat) (a b : List Nat) :
    ByCase.lessRunes toLower (x :: a) (y :: b) =
      if toLower x ≠ toLower y then decide (toLower x < toLower y)
      else if x ≠ y then decide (x < y)
      else ByCase.lessRunes toLower a b := by
  have hmax : (if (x :: a).length > (y :: b).length then (y :: b).length else (x :: a).length)
      = (if a.length > b.length then b.length else a.length) + 1 := by
    simp only [List.length_cons]; split <;> split <;> omega
  simp only [ByCase.lessRunes, hmax, ByCase.lessLoop, List.getD_cons_zero, lessLoop_cons]

theorem lessRunes_irrefl (toLower : Nat → Nat) (a : List Nat) :
    ByCase.lessRunes toLower a a = false := by
  induction a with
  | nil => simp [lessRunes_nil_right]
  | cons x a ih => simp [lessRunes_cons, ih]

theorem lessRunes_trans (toLower : Nat → Nat) (a b c : List Nat)
    (hab : ByCase.lessRunes toLower a b = true) (hbc : ByCase.lessRunes toLower b c = true) :
    ByCase.lessRunes toLower a c = true := by
  induction a generalizing b c with
  | nil =>
    cases b with
    | nil => simp [lessRunes_nil_right] at hab
    | cons y b =>
      cases c with
      | nil => simp [lessRunes_nil_right] at hbc
      | cons z c => simp [lessRunes_nil_left]
  | cons x a ih =>
    cases b with
    | nil => simp [lessRunes_nil_right] at hab
    | cons y b =>
      cases c with
      | nil => simp [lessRunes_nil_right] at hbc
      | cons z c =>
        rw [lessRunes_cons] at hab hbc
        rw [lessRunes_cons]
        split at hab
        · split at hbc
          · simp only [decide_eq_true_eq] at hab hbc
            rw [if_pos (by omega)]; simp only [decide_eq_true_eq]; omega
          · split at hbc
            · simp only [decide_eq_true_eq] at hab hbc
              rw [if_pos (by omega)]; simp only [decide_eq_true_eq]; omega
            · have hyz : y = z := by omega
              subst hyz
              rw [if_pos (by omega)]; exact hab
        · split at hab
          · split at hbc
            · simp only [decide_eq_true_eq] at hab hbc
              rw [if_pos (by omega)]; simp only [decide_eq_true_eq]; omega
            · split at hbc
              · simp only [decide_eq_true_eq] at hab hbc
                rw [if_neg (by omega), if_pos (by omega)]; simp only [decide_eq_true_eq]; omega
              · have hyz : y = z := by omega
                subst hyz
                rw [if_neg (by omega), if_pos (by omega)]; exact hab
          · have hxy : x = y := by omega
            subst hxy
            split at hbc
            · rw [if_pos (by omega)]; exact hbc
            · split at hbc
              · rw [if_neg (by omega), if_pos (by omega)]; exact hbc
              · rw [if_neg (by omega), if_neg (by omega)]
                exact ih b c hab hbc

theorem lessRunes_total (toLower : Nat → Nat) (a b : List Nat)
    (hab : ByCase.lessRunes toLower a b = false) (hba : ByCase.lessRunes toLower b a = false) :
    a = b := by
  induction a generalizing b with
  | nil =>
    cases b with
    | nil => rfl
    | cons y b => simp [lessRunes_nil_left] at hab
  | cons x a ih =>
    cases b with
    | nil => simp [lessRunes_nil_left] at hba
    | cons y b =>
      rw [lessRunes_cons] at hab hba
      split at hab
      · split at hba
        · simp only [decide_eq_false_iff_not] at hab hba; omega
        · omega
      · split at hba
        · omega
        · split at hab
          · split at hba
            · simp only [decide_eq_false_iff_not] at hab hba; omega
            · omega
          · split at hba
            · omega
            · have hxy : x = y := by omega
              rw [hxy, ih b hab hba]

theorem lessRunes_asymm (toLower : Nat → Nat) (a b : List Nat)
    (hab : ByCase.lessRunes toLower a b = true) : ByCase.lessRunes toLower b a = false := by
  cases h : ByCase.lessRunes toLower b a with
  | false => rfl
  | true =>
    have := lessRunes_trans toLower a b a hab h
    rw [lessRunes_irrefl] at this
    exact absurd this (by decide)

/-- The comparator only looks at `toLower` on the runes of the two names. -/
theorem lessRunes_congr (f g : Nat → Nat) (a b : List Nat)
    (ha : ∀ x ∈ a, f x = g x) (hb : ∀ x ∈ b, f x = g x) :
    ByCase.lessRunes f a b = ByCase.lessRunes g a b := by
  induction a generalizing b with
  | nil => simp [lessRunes_nil_left]
  | cons x a ih =>
    cases b with
    | nil => simp [lessRunes_nil_right]
    | cons y b =>
      rw [lessRunes_cons, lessRunes_cons, ha x (List.mem_cons_self _ _),
        hb y (List.mem_cons_self _ _),
        ih b (fun z hz => ha z (List.mem_cons_of_mem _ hz))
          (fun z hz => hb z (List.mem_cons_of_mem _ hz))]

theorem runes_injective (s t : String) (h : runes s = runes t) : s = t := by
  have hinj : Function.Injective Char.toNat := by
    intro c d hcd
    apply Char.ext
    apply UInt32.ext
    exact hcd
  have := List.map_injective_iff.mpr hinj h
  exact String.ext this

/-- C7: the comparator `ByCase.Less`, as a relation on names (rune sequences),
is a strict total order: irreflexive, transitive, and trichotomous (exactly
one of a<b, a=b, b<a holds), whatever the lowercase table is. -/
theorem ByCase_Less_strict_total_order (toLower : Nat → Nat) :
    (∀ a, ByCase.lessRunes toLower a a = false) ∧
    (∀ a b c, ByCase.lessRunes toLower a b = true → ByCase.lessRunes toLower b c = true →
      ByCase.lessRunes toLower a c = true) ∧
    (∀ a b,
      (ByCase.lessRunes toLower a b = true ∧ a ≠ b ∧ ByCase.lessRunes toLower b a = false) ∨
      (ByCase.lessRunes toLower a b = false ∧ a = b ∧ ByCase.lessRunes toLower b a = false) ∨
      (ByCase.lessRunes toLower a b = false ∧ a ≠ b ∧ ByCase.lessRunes toLower b a = true)) := by
  refine ⟨lessRunes_irrefl toLower, lessRunes_trans toLower, ?_⟩
  intro a b
  cases hab : ByCase.lessRunes toLower a b with
  | true =>
    refine Or.inl ⟨rfl, ?_, lessRunes_asymm toLower a b hab⟩
    intro h
    rw [h, lessRunes_irrefl] at hab
    exact absurd hab (by decide)
  | false =>
    cases hba : ByCase.lessRunes toLower b a with
    | false => exact Or.inr (Or.inl ⟨rfl, lessRunes_total toLower a b hab hba, rfl⟩)
    | true =>
      refine Or.inr (Or.inr ⟨rfl, ?_, rfl⟩)
      intro h
      rw [h, lessRunes_irrefl] at hba
      exact absurd hba (by decide)

/-- C7 at "Apple" < "apple" < "banana". -/
theorem ByCase_Less_strict_total_order_witness :
    ByCase.lessRunes (unicodeToLower id) (runes "Apple") (runes "apple") = true ∧
    ByCase.lessRunes (unicodeToLower id) (runes "apple") (runes "banana") = true ∧
    ByCase.lessRunes (unicodeToLower id) (runes "Apple") (runes "banana") = true :=
  ⟨by decide, by decide,
    (ByCase_Less_strict_total_order (unicodeToLower id)).2.1 (runes "Apple") (runes "apple")
      (runes "banana") (by decide) (by decide)⟩

/-! ## C8: the example of the specification -/

theorem unicodeToLower_ascii (table : Nat → Nat) (x : Nat) (h : x ≤ 127) :
    unicodeToLower table x = unicodeToLower id x := by
  simp [unicodeToLower, h]

/-- On ASCII names the case table plays no part. -/
theorem lessRunes_ascii (table : Nat → Nat) (a b : List Nat)
    (ha : ∀ x ∈ a, x ≤ 127) (hb : ∀ x ∈ b, x ≤ 127) :
    ByCase.lessRunes (unicodeToLower table) a b = ByCase.lessRunes (unicodeToLower id) a b :=
  lessRunes_congr _ _ a b (fun x hx => unicodeToLower_ascii table x (ha x hx))
    (fun x hx => unicodeToLower_ascii table x (hb x hx))

theorem lessRunes_le_trans (toLower : Nat → Nat) (a b c : List Nat)
    (hab : ByCase.lessRunes toLower b a = false) (hbc : ByCase.lessRunes toLower c b = false) :
    ByCase.lessRunes toLower c a = false := by
  cases h : ByCase.lessRunes toLower c a with
  | false => rfl
  | true =>
    cases hab' : ByCase.lessRunes toLower a b with
    | false =>
      have e := lessRunes_total toLower a b hab' hab
      subst e
      rw [h] at hbc
      exact absurd hbc (by decide)
    | true =>
      have := lessRunes_trans toLower c a b h hab'
      rw [this] at hbc
      exact absurd hbc (by decide)

/-- A slice ordered by `Less` is determined by its names: two orderings of
the same entries list the names in the same order. -/
theorem sorted_names_unique (toLower : Nat → Nat) (l₁ l₂ : List DirItem)
    (hp : l₁.Perm l₂)
    (h₁ : l₁.Sorted (fun a b => ByCase.lessItems toLower b a = false))
    (h₂ : l₂.Sorted (fun a b => ByCase.lessItems toLower b a = false)) :
    l₁.map (fun d => d.Name) = l₂.map (fun d => d.Name) := by
  have anti : IsAntisymm String
      (fun x y => ByCase.lessRunes toLower (runes y) (runes x) = false) :=
    ⟨fun x y hxy hyx => runes_injective x y (lessRunes_total toLower _ _ hyx hxy)⟩
  have s₁ : (l₁.map (fun d => d.Name)).Sorted
      (fun x y => ByCase.lessRunes toLower (runes y) (runes x) = false) :=
    List.pairwise_map.mpr h₁
  have s₂ : (l₂.map (fun d => d.Name)).Sorted
      (fun x y => ByCase.lessRunes toLower (runes y) (runes x) = false) :=
    List.pairwise_map.mpr h₂
  exact List.eq_of_perm_of_sorted (hp.map _) s₁ s₂

/-- C8, as the code behaves: whatever the case table, every ordering by
`ByCase.Less` of the entries named "Banana", "apple", "Apple", "banana2"
lists them as "Apple", "apple", "Banana", "banana2", and so does the sort of
`driveHandler`; `Less` places "Apple" before "apple" and "Apple" before
"banana". -/
theorem sort_example (table : Nat → Nat) :
    (∀ l : List DirItem, l.Perm exampleEntries →
      l.Sorted (fun a b => ByCase.lessItems (unicodeToLower table) b a = false) →
      l.map (fun d => d.Name) = ["Apple", "apple", "Banana", "banana2"]) ∧
    (sortByCase (unicodeToLower table) exampleEntries).map (fun d => d.Name)
      = ["Apple", "apple", "Banana", "banana2"] ∧
    ByCase.lessRunes (unicodeToLower table) (runes "Apple") (runes "apple") = true ∧
    ByCase.lessRunes (unicodeToLower table) (runes "Apple") (runes "banana") = true := by
  have hid : ∀ a b : DirItem, a ∈ exampleEntries → b ∈ exampleEntries →
      ByCase.lessItems (unicodeToLower table) a b = ByCase.lessItems (unicodeToLower id) a b := by
    intro a b ha hb
    apply lessRunes_ascii
    · revert a; decide
    · revert b; decide
  have hsorted : (sortByCase (unicodeToLower id) exampleEntries).Sorted
      (fun a b => ByCase.lessItems (unicodeToLower table) b a = false) := by
    have hmem : ∀ a, a ∈ sortByCase (unicodeToLower id) exampleEntries → a ∈ exampleEntries := by
      decide
    have hs : (sortByCase (unicodeToLower id) exampleEntries).Sorted
        (fun a b => ByCase.lessItems (unicodeToLower id) b a = false) := by
      unfold List.Sorted
      decide
    exact List.Pairwise.imp_of_mem
      (fun {a b} ha hb h => by rw [hid b a (hmem b hb) (hmem a ha)]; exact h) hs
  have hperm : (sortByCase (unicodeToLower id) exampleEntries).Perm exampleEntries :=
    List.perm_insertionSort _ _
  have key : ∀ l : List DirItem, l.Perm exampleEntries →
      l.Sorted (fun a b => ByCase.lessItems (unicodeToLower table) b a = false) →
      l.map (fun d => d.Name) = ["Apple", "apple", "Banana", "banana2"] := by
    intro l hp hs
    have := sorted_names_unique (unicodeToLower table) l _ (hp.trans hperm.symm) hs hsorted
    rw [this]
    decide
  refine ⟨key, ?_, ?_, ?_⟩
  · apply key
    · exact List.perm_insertionSort _ _
    · unfold sortByCase
      have tot : IsTotal DirItem
          (fun a b => ByCase.lessItems (unicodeToLower table) b a = false) :=
        ⟨fun a b => by
          cases h : ByCase.lessItems (unicodeToLower table) b a with
          | false => exact Or.inl rfl
          | true => exact Or.inr (lessRunes_asymm _ _ _ h)⟩
      have tr : IsTrans DirItem
          (fun a b => ByCase.lessItems (unicodeToLower table) b a = false) :=
        ⟨fun a b c hab hbc => lessRunes_le_trans _ _ _ _ hab hbc⟩
      exact List.sorted_insertionSort _ _
  · rw [lessRunes_ascii]
    · decide
    · decide
    · decide
  · rw [lessRunes_ascii]
    · decide
    · decide
    · decide

/-- C8 as stated fails: the sort does not yield "apple", "Apple", "Banana",
"banana2", and `Less` does not place "apple" before "Apple". -/
theorem sort_example_as_stated_fails :
    (sortByCase (unicodeToLower id) exampleEntries).map (fun d => d.Name)
      ≠ ["apple", "Apple", "Banana", "banana2"] ∧
    ByCase.lessRunes (unicodeToLower id) (runes "apple") (runes "Apple") = false ∧
    ByCase.Less (unicodeToLower id) exampleEntries 1 2 = some false := by
  decide

/-- C8 applied to the slice in the order "Apple", "apple", "Banana", "banana2". -/
theorem sort_example_witness :
    (sortByCase (unicodeToLower id) exampleEntries).Perm exampleEntries ∧
    (sortByCase (unicodeToLower id) exampleEntries).map (fun d => d.Name)
      = ["Apple", "apple", "Banana", "banana2"] :=
  ⟨List.perm_insertionSort _ _,
    (sort_example id).1 _ (List.perm_insertionSort _ _) (by unfold List.Sorted; decide)⟩

/-! ## C9: the case-insensitive key -/

/-- C9 as stated fails at "Ab" and "aa": the lowercased names "ab" and "aa"
differ and "ab" does not precede "aa", yet `Less` places "Ab" before "aa",
decided by the original first characters. -/
theorem lowercase_key_as_stated_fails :
    lowercase (unicodeToLower id) (runes "Ab") ≠ lowercase (unicodeToLower id) (runes "aa") ∧
    lexLess (lowercase (unicodeToLower id) (runes "Ab"))
      (lowercase (unicodeToLower id) (runes "aa")) = false ∧
    ByCase.lessRunes (unicodeToLower id) (runes "Ab") (runes "aa") = true := by
  decide

theorem lessRunes_append (toLower : Nat → Nat) (p s t : List Nat) :
    ByCase.lessRunes toLower (p ++ s) (p ++ t) = ByCase.lessRunes toLower s t := by
  induction p with
  | nil => rfl
  | cons c p ih => simp [lessRunes_cons, ih]

theorem lexLess_append (p s t : List Nat) : lexLess (p ++ s) (p ++ t) = lexLess s t := by
  induction p with
  | nil => rfl
  | cons c p ih => simp [lexLess, ih]

/-- C9, as the code behaves: the comparison is position by position. For
names that agree in their original characters up to the first position where
their lowercased forms diverge (`p` is the common part; `s` or `t` is empty,
or their first runes differ in lowercase), `Less` holds exactly when the
lowercased first name precedes the lowercased second in lexicographic rune
order, a proper prefix first. In general the first position where the
original characters differ decides: by the lowercase forms if they differ
there, by the original characters otherwise, whatever follows. -/
theorem ByCase_Less_lowercase_key (toLower : Nat → Nat) :
    (∀ p s t : List Nat,
      (∀ x y, s.head? = some x → t.head? = some y → toLower x ≠ toLower y) →
      ByCase.lessRunes toLower (p ++ s) (p ++ t)
        = lexLess (lowercase toLower (p ++ s)) (lowercase toLower (p ++ t))) ∧
    (∀ (p s t : List Nat) (x y : Nat), x ≠ y →
      ByCase.lessRunes toLower (p ++ x :: s) (p ++ y :: t)
        = if toLower x ≠ toLower y then decide (toLower x < toLower y) else decide (x < y)) := by
  constructor
  · intro p s t h
    unfold lowercase
    rw [lessRunes_append, List.map_append, List.map_append, lexLess_append]
    cases s with
    | nil => cases t <;> simp [lessRunes_nil_left, lexLess]
    | cons x s =>
      cases t with
      | nil => simp [lessRunes_nil_right, lexLess]
      | cons y t =>
        have hxy := h x y rfl rfl
        rw [lessRunes_cons, if_pos hxy]
        simp only [List.map_cons, lexLess]
        by_cases hlt : toLower x < toLower y
        · simp [hlt]
        · have : toLower y < toLower x := by omega
          simp [hlt, this]
  · intro p s t x y hxy
    rw [lessRunes_append, lessRunes_cons]
    simp [hxy]

/-- C9 at "apple" and "apricot": common part "ap", then `p` against `r`. -/
theorem ByCase_Less_lowercase_key_witness :
    ByCase.lessRunes (unicodeToLower id) (runes "ap" ++ runes "ple") (runes "ap" ++ runes "ricot")
      = lexLess (lowercase (unicodeToLower id) (runes "ap" ++ runes "ple"))
          (lowercase (unicodeToLower id) (runes "ap" ++ runes "ricot")) :=
  (ByCase_Less_lowercase_key (unicodeToLower id)).1 (runes "ap") (runes "ple") (runes "ricot")
    (by
      intro x y hx hy
      have hx1 : (runes "ple").head? = some 112 := by decide
      have hy1 : (runes "ricot").head? = some 114 := by decide
      rw [hx1] at hx
      rw [hy1] at hy
      cases hx
      cases hy
      decide)

/-! ## The response writer: lemmas -/



theorem WriteHeader_body (w : ResponseWriter) (code : Nat) :
    (w.WriteHeader code).body = w.body := by
  unfold ResponseWriter.WriteHeader; split <;> rfl

theorem WriteHeader_header (w : ResponseWriter) (code : Nat) :
    (w.WriteHeader code).header = w.header := by
  unfold ResponseWriter.WriteHeader; split <;> rfl

theorem WriteHeader_sent (w : ResponseWriter) (code : Nat) :
    (w.WriteHeader code).sent = some (w.sent.getD (code, w.header)) := by
  unfold ResponseWriter.WriteHeader; split <;> simp [*]

theorem Write_body (w : ResponseWriter) (buf : List Nat) :
    (w.Write buf).body = w.body ++ buf := by
  simp [ResponseWriter.Write, WriteHeader_body]

theorem Write_header (w : ResponseWriter) (buf : List Nat) :
    (w.Write buf).header = w.header := by
  simp [ResponseWriter.Write, WriteHeader_header]

theorem Write_sent (w : ResponseWriter) (buf : List Nat) :
    (w.Write buf).sent = some (w.sent.getD (200, w.header)) := by
  simp [ResponseWriter.Write, WriteHeader_sent]

theorem SetCookie_sent (w : ResponseWriter) (c : Cookie) : (w.SetCookie c).sent = w.sent := rfl


theorem SetCookie_cookies (w : ResponseWriter) (c : Cookie) :
    (w.SetCookie c).header.cookies = w.header.cookies ++ [c] := rfl

theorem Error_body (w : ResponseWriter) (msg : String) (code : Nat) :
    (w.Error msg code).body = w.body ++ utf8 (msg ++ "\n") := by
  simp [ResponseWriter.Error, Write_body, WriteHeader_body]

theorem Error_sent (w : ResponseWriter) (msg : String) (code : Nat) :
    (w.Error msg code).sent = some (w.sent.getD
      (code, { w.header with contentType := some "text/plain; charset=utf-8" })) := by
  simp only [ResponseWriter.Error, Write_sent, WriteHeader_sent, WriteHeader_header]
  cases w.sent <;> rfl

/-- The note `http.Redirect` prints for a GET request. -/
theorem Redirect_body (w : ResponseWriter) (method url : String) (code : Nat) :
    (w.Redirect method url code).body = w.body ++
      (if w.header.contentType.isSome = false ∧ method = "GET" then
        utf8 ("<a href=\"" ++ htmlEscape url ++ "\">Found</a>.\n" ++ "\n") else []) := by
  unfold ResponseWriter.Redirect
  by_cases hct : w.header.contentType.isSome = true <;>
    by_cases hg : method = "GET" <;>
    by_cases hh : method = "HEAD" <;>
    simp [hct, hg, hh, Write_body, WriteHeader_body]

theorem Redirect_sent_some (w : ResponseWriter) (method url : String) (code : Nat)
    (x : Nat × Header) (h : w.sent = some x) :
    (w.Redirect method url code).sent = some x := by
  unfold ResponseWriter.Redirect
  by_cases hct : w.header.contentType.isSome = true <;>
    by_cases hg : method = "GET" <;>
    by_cases hh : method = "HEAD" <;>
    simp [hct, hg, hh, Write_sent, WriteHeader_sent, h]

theorem Redirect_status (w : ResponseWriter) (method url : String) (code : Nat)
    (h : w.sent = none) : (w.Redirect method url code).status = code := by
  unfold ResponseWriter.Redirect ResponseWriter.status
  by_cases hct : w.header.contentType.isSome = true <;>
    by_cases hg : method = "GET" <;>
    by_cases hh : method = "HEAD" <;>
    simp [hct, hg, hh, Write_sent, WriteHeader_sent, h]

theorem Redirect_location (w : ResponseWriter) (method url : String) (code : Nat)
    (h : w.sent = none) : (w.Redirect method url code).sentHeader.location = some url := by
  unfold ResponseWriter.Redirect ResponseWriter.sentHeader
  by_cases hct : w.header.contentType.isSome = true <;>
    by_cases hg : method = "GET" <;>
    by_cases hh : method = "HEAD" <;>
    simp [hct, hg, hh, Write_sent, WriteHeader_sent, h]

theorem Redirect_cookies (w : ResponseWriter) (method url : String) (code : Nat)
    (h : w.sent = none) :
    (w.Redirect method url code).sentHeader.cookies = w.header.cookies := by
  unfold ResponseWriter.Redirect ResponseWriter.sentHeader
  by_cases hct : w.header.contentType.isSome = true <;>
    by_cases hg : method = "GET" <;>
    by_cases hh : method = "HEAD" <;>
    simp [hct, hg, hh, Write_sent, WriteHeader_sent, h]

theorem Error_status (w : ResponseWriter) (msg : String) (code : Nat) (h : w.sent = none) :
    (w.Error msg code).status = code := by
  simp [ResponseWriter.status, Error_sent, h]

theorem Error_cookies (w : ResponseWriter) (msg : String) (code : Nat) (h : w.sent = none) :
    (w.Error msg code).sentHeader.cookies = w.header.cookies := by
  simp [ResponseWriter.sentHeader, Error_sent, h]

/-! ## C2: a drive request without a session -/

theorem splitChars_ne_nil (sep : Char) (l : List Char) : splitChars sep l ≠ [] := by
  cases l with
  | nil => simp [splitChars]
  | cons c cs =>
    simp only [splitChars]
    split
    · simp
    · split <;> simp

theorem stringsSplit_drive (p : String) (h : "/drive/".data.isPrefixOf p.data = true) :
    ∃ driveName path, (stringsSplit p).drop 2 = driveName :: path ∧
      2 ≤ (stringsSplit p).length ∧ hasDrivePrefix p = true := by
  rw [List.isPrefixOf_iff_prefix] at h
  obtain ⟨rest, hrest⟩ := h
  have hs : splitChars '/' p.data
      = [] :: ['d', 'r', 'i', 'v', 'e'] :: splitChars '/' rest := by
    rw [← hrest]
    have : "/drive/".data = ['/', 'd', 'r', 'i', 'v', 'e', '/'] := rfl
    rw [this]
    simp only [List.cons_append, List.nil_append, splitChars]
    simp
  have hp : hasDrivePrefix p = true := by
    unfold hasDrivePrefix
    rw [List.isPrefixOf_iff_prefix, ← hrest]
    exact ⟨'/' :: rest, rfl⟩
  obtain ⟨x, xs, hx⟩ := List.exists_cons_of_ne_nil (splitChars_ne_nil '/' rest)
  refine ⟨String.mk x, xs.map String.mk, ?_, ?_, hp⟩
  · simp [stringsSplit, hs, hx]
  · simp [stringsSplit, hs]

/-- What `driveHandler` does for a request under `/drive/` whose session is
missing or malformed: one redirect to the fixed target `/login?redirect=/drive`,
and no other call. -/
theorem driveHandler_unauthenticated {σ : Type} (env : Env σ) (r : Request) (s : σ)
    (hp : "/drive/".data.isPrefixOf r.Path.data = true)
    (hauth : (getAuth env r).2.2 ≠ none) :
    (driveHandler env r s).log = [Event.Redirect "/login?redirect=/drive" 302] ∧
    (driveHandler env r s).w.status = 302 ∧
    (driveHandler env r s).w.sentHeader.location = some "/login?redirect=/drive" := by
  obtain ⟨driveName, path, hsplit, hlen, hpre⟩ := stringsSplit_drive r.Path hp
  obtain ⟨e, he⟩ := Option.ne_none_iff_exists'.mp hauth
  have hrun : driveHandler env r s = (State.init s).Redirect r "/login?redirect=/drive" 302 := by
    unfold driveHandler
    simp only [hpre, hsplit, he]
    simp [Nat.not_lt.mpr hlen]
  rw [hrun]
  exact ⟨rfl, Redirect_status _ _ _ _ rfl, Redirect_location _ _ _ _ rfl⟩

/-- C2 at `GET /drive/docs/a.txt` without cookies: the handler makes no
backend call and redirects, but to `/login?redirect=/drive`, whose `redirect`
parameter is `/drive` and not the path of the request. -/
theorem driveHandler_no_session_loses_path :
    (∀ e ∈ (driveHandler scriptEnv (request "GET" "/drive/docs/a.txt" []) []).log,
      e.isBackend = false) ∧
    (driveHandler scriptEnv (request "GET" "/drive/docs/a.txt" []) []).w.status = 302 ∧
    (driveHandler scriptEnv (request "GET" "/drive/docs/a.txt" []) []).w.sentHeader.location
        = some "/login?redirect=/drive" ∧
    queryParam "/login?redirect=/drive" "redirect" = some "/drive" ∧
    "/drive" ≠ (request "GET" "/drive/docs/a.txt" []).Path :=
  ⟨by decide, by decide, by decide, by decide, by decide⟩

/-! ## C10: the paths of the directory page -/

theorem splitChars_plain (e : List Char) (h : '/' ∉ e) : splitChars '/' e = [e] := by
  induction e with
  | nil => rfl
  | cons c cs ih =>
    have hc : c ≠ '/' := fun hc => h (by simp [hc])
    have hcs : '/' ∉ cs := fun hcs => h (List.mem_cons_of_mem _ hcs)
    simp [splitChars, hc, ih hcs]

theorem splitChars_append (e rest : List Char) (h : '/' ∉ e) :
    splitChars '/' (e ++ '/' :: rest) = e :: splitChars '/' rest := by
  induction e with
  | nil => simp [splitChars]
  | cons c cs ih =>
    have hc : c ≠ '/' := fun hc => h (by simp [hc])
    have hcs : '/' ∉ cs := fun hcs => h (List.mem_cons_of_mem _ hcs)
    simp [splitChars, hc, ih hcs]

theorem splitChars_joinChars (elems : List (List Char)) (hne : elems ≠ [])
    (h : ∀ e ∈ elems, '/' ∉ e) : splitChars '/' (joinChars elems) = elems := by
  induction elems with
  | nil => exact absurd rfl hne
  | cons e es ih =>
    cases es with
    | nil => simpa [joinChars] using splitChars_plain e (h e (List.mem_cons_self _ _))
    | cons e' es' =>
      simp only [joinChars]
      rw [splitChars_append e _ (h e (List.mem_cons_self _ _)),
        ih (by simp) (fun x hx => h x (List.mem_cons_of_mem _ hx))]


theorem joinChars_concat (es : List (List Char)) (x : List Char) (hne : es ≠ []) :
    joinChars (es ++ [x]) = joinChars es ++ '/' :: x := by
  induction es with
  | nil => exact absurd rfl hne
  | cons e es ih =>
    cases es with
    | nil => rfl
    | cons e' es' =>
      have h1 : joinChars ((e :: e' :: es') ++ [x]) = e ++ '/' :: joinChars ((e' :: es') ++ [x]) :=
        rfl
      rw [h1, ih (by simp)]
      simp [joinChars]

theorem cleanStep_plain (rooted : Bool) (elems : List (List Char))
    (h : ∀ e ∈ elems, plainChars e) (acc : Nat × List (List Char)) :
    elems.foldl (cleanStep rooted) acc = (acc.1, elems.reverse ++ acc.2) := by
  induction elems generalizing acc with
  | nil => rfl
  | cons e es ih =>
    obtain ⟨h1, _, h3, h4⟩ := h e (List.mem_cons_self _ _)
    have hstep : cleanStep rooted acc e = (acc.1, e :: acc.2) := by
      simp [cleanStep, h1, h3, h4]
    rw [List.foldl_cons, hstep, ih (fun x hx => h x (List.mem_cons_of_mem _ hx))]
    simp

theorem joinChars_head (elems : List (List Char)) (hne : elems ≠ [])
    (h : ∀ e ∈ elems, plainChars e) :
    ∃ c rest, joinChars elems = c :: rest ∧ c ≠ '/' := by
  cases elems with
  | nil => exact absurd rfl hne
  | cons e es =>
    obtain ⟨h1, h2, _, _⟩ := h e (List.mem_cons_self _ _)
    cases e with
    | nil => exact absurd rfl h1
    | cons c cs =>
      have hc : c ≠ '/' := fun hc => h2 (by simp [hc])
      cases es with
      | nil => exact ⟨c, cs, rfl, hc⟩
      | cons e' es' => exact ⟨c, cs ++ '/' :: joinChars (e' :: es'), rfl, hc⟩

/-- A relative path of plain elements is already clean. -/
theorem cleanChars_relative (elems : List (List Char)) (hne : elems ≠ [])
    (h : ∀ e ∈ elems, plainChars e) : cleanChars (joinChars elems) = joinChars elems := by
  obtain ⟨c, rest, hj, hc⟩ := joinChars_head elems hne h
  have hsplit := splitChars_joinChars elems hne (fun e he => (h e he).2.1)
  unfold cleanChars
  rw [hj] at hsplit ⊢
  simp only [hsplit, cleanStep_plain _ elems h]
  simp [hc, hne, hj]

/-- A rooted path of plain elements is already clean. -/
theorem cleanChars_rooted (elems : List (List Char)) (hne : elems ≠ [])
    (h : ∀ e ∈ elems, plainChars e) :
    cleanChars ('/' :: joinChars elems) = '/' :: joinChars elems := by
  have hsplit : splitChars '/' ('/' :: joinChars elems) = [] :: elems := by
    have := splitChars_append [] (joinChars elems) (by simp)
    simpa [splitChars_joinChars elems hne (fun e he => (h e he).2.1)] using this
  unfold cleanChars
  simp only [hsplit, List.foldl_cons]
  have h0 : ∀ b, cleanStep b (0, []) [] = (0, []) := by simp [cleanStep]
  rw [h0, cleanStep_plain _ elems h]
  simp

theorem filepathJoin_previous (rest : List String) (h : ∀ s ∈ rest, plainName s) :
    filepathJoin ("" :: "drive" :: rest) = stringsJoin ("drive" :: rest) := by
  have hd : plainChars "drive".data := by decide
  have hall : ∀ e ∈ "drive".data :: rest.map String.data, plainChars e := by
    intro e he
    rcases List.mem_cons.mp he with rfl | he
    · exact hd
    · obtain ⟨s, hs, rfl⟩ := List.mem_map.mp he
      exact h s hs
  have hdrop : (List.map String.data ("" :: "drive" :: rest)).dropWhile (fun e => decide (e = []))
      = "drive".data :: rest.map String.data := by
    simp only [List.map_cons]
    rw [List.dropWhile_cons_of_pos (by decide), List.dropWhile_cons_of_neg (by decide)]
  unfold filepathJoin
  rw [hdrop]
  simp only [cleanChars_relative _ (by simp) hall, stringsJoin, List.map_cons]

theorem drivePath_data (segs : List String) :
    (drivePath segs).data = '/' :: joinChars ("drive".data :: segs.map String.data) := rfl

theorem filepathJoin_entry (segs : List String) (name : String)
    (h : ∀ s ∈ segs, plainName s) (hn : plainName name) :
    filepathJoin [drivePath segs, name] = drivePath segs ++ "/" ++ name := by
  have hd : plainChars "drive".data := by decide
  have hall : ∀ e ∈ ("drive".data :: segs.map String.data) ++ [name.data], plainChars e := by
    intro e he
    rcases List.mem_append.mp he with he | he
    · rcases List.mem_cons.mp he with rfl | he
      · exact hd
      · obtain ⟨s, hs, rfl⟩ := List.mem_map.mp he
        exact h s hs
    · rw [List.mem_singleton.mp he]
      exact hn
  have hdrop : (List.map String.data [drivePath segs, name]).dropWhile
      (fun e => decide (e = [])) = [(drivePath segs).data, name.data] := by
    simp only [List.map_cons, List.map_nil]
    rw [List.dropWhile_cons_of_neg (by simp [drivePath_data])]
  unfold filepathJoin
  rw [hdrop]
  show String.mk (cleanChars (joinChars [(drivePath segs).data, name.data])) = _
  have hj : joinChars [(drivePath segs).data, name.data]
      = '/' :: joinChars (("drive".data :: segs.map String.data) ++ [name.data]) := by
    rw [joinChars_concat _ _ (by simp)]
    rfl
  rw [hj, cleanChars_rooted _ (by simp) hall, joinChars_concat _ _ (by simp)]
  apply String.ext
  simp [drivePath_data, String.data_append]

theorem map_mk_data (l : List String) : List.map (String.mk ∘ String.data) l = l := by
  induction l with
  | nil => rfl
  | cons a l ih => simp [ih]

theorem stringsSplit_drivePath (segs : List String) (h : ∀ s ∈ segs, plainName s) :
    stringsSplit (drivePath segs) = "" :: "drive" :: segs := by
  have hall : ∀ e ∈ "drive".data :: segs.map String.data, '/' ∉ e := by
    intro e he
    rcases List.mem_cons.mp he with rfl | he
    · decide
    · obtain ⟨s, hs, rfl⟩ := List.mem_map.mp he
      exact (h s hs).2.1
  have := splitChars_append [] (joinChars ("drive".data :: segs.map String.data)) (by simp)
  unfold stringsSplit
  rw [drivePath_data]
  simp only [List.nil_append] at this
  rw [this, splitChars_joinChars _ (by simp) hall]
  simp only [List.map_cons, List.map_map]
  rw [map_mk_data]

theorem fillItems_paths (escapedPath : String) (list : List Value) (d page : DirectoryPage)
    (h : fillItems escapedPath list d = some page)
    (hd : ∀ item ∈ d.Dirs ++ d.Files, item.Path = filepathJoin [escapedPath, item.Name]) :
    page.Previous = d.Previous ∧ page.CurrentPath = d.CurrentPath ∧
    ∀ item ∈ page.Dirs ++ page.Files, item.Path = filepathJoin [escapedPath, item.Name] := by
  induction list generalizing d with
  | nil =>
    simp only [fillItems, Option.some.injEq] at h
    subst h
    exact ⟨rfl, rfl, hd⟩
  | cons v rest ih =>
    simp only [fillItems] at h
    split at h
    · exact absurd h (by simp)
    · rename_i isFile pathInfo hitem
      have hpath : pathInfo.Path = filepathJoin [escapedPath, pathInfo.Name] := by
        unfold dirItem at hitem
        split at hitem
        · split at hitem
          · simp only [Option.some.injEq, Prod.mk.injEq] at hitem
            rw [← hitem.2]
          · exact absurd hitem (by simp)
        · exact absurd hitem (by simp)
      split at h
      · refine ih { d with Files := d.Files ++ [pathInfo] } h ?_
        intro item hi
        simp only [List.mem_append, List.mem_singleton] at hi
        rcases hi with hi | hi | hi
        · exact hd item (List.mem_append_left _ hi)
        · exact hd item (List.mem_append_right _ hi)
        · rw [hi]; exact hpath
      · refine ih { d with Dirs := d.Dirs ++ [pathInfo] } h ?_
        intro item hi
        simp only [List.mem_append, List.mem_singleton] at hi
        rcases hi with (hi | hi) | hi
        · exact hd item (List.mem_append_left _ hi)
        · rw [hi]; exact hpath
        · exact hd item (List.mem_append_right _ hi)

/-- The directory page built from the escaped path p = `/drive/<s1>/.../<sn>`
(n >= 1, plain segments): `Previous` is `drive/<s1>/.../<s(n-1)>`, without a
leading slash (`filepath.Join` drops the empty first element of the split
path), and every entry with a plain name has `Path` equal to p, `/` and the
name. -/
theorem directoryPage_spec (toLower : Nat → Nat) (segs : List String) (list : List Value)
    (page : DirectoryPage) (hne : segs ≠ []) (hsegs : ∀ s ∈ segs, plainName s)
    (h : directoryPage toLower (drivePath segs) list = some page) :
    page.CurrentPath = drivePath segs ∧
    page.Previous = stringsJoin ("drive" :: segs.dropLast) ∧
    ∀ item ∈ page.Dirs ++ page.Files, plainName item.Name →
      item.Path = drivePath segs ++ "/" ++ item.Name := by
  unfold directoryPage at h
  simp only at h
  split at h
  · exact absurd h (by simp)
  · rename_i filled hfill
    simp only [Option.some.injEq] at h
    obtain ⟨hprev, hcur, hitems⟩ := fillItems_paths _ _ _ _ hfill (by simp)
    subst h
    refine ⟨hcur, ?_, ?_⟩
    · simp only [hprev, stringsSplit_drivePath segs hsegs]
      have htake : List.take (("" :: "drive" :: segs).length - 1) ("" :: "drive" :: segs)
          = "" :: "drive" :: segs.dropLast := by
        rw [← List.dropLast_eq_take]
        cases segs with
        | nil => exact absurd rfl hne
        | cons a l => rfl
      rw [htake]
      exact filepathJoin_previous _ (fun s hs => hsegs s (List.dropLast_subset _ hs))
    · intro item hi hname
      have hmem : item ∈ filled.Dirs ++ filled.Files := by
        simp only [List.mem_append] at hi ⊢
        rcases hi with hi | hi
        · exact Or.inl ((List.perm_insertionSort _ _).mem_iff.mp hi)
        · exact Or.inr ((List.perm_insertionSort _ _).mem_iff.mp hi)
      rw [hitems item hmem]
      exact filepathJoin_entry segs item.Name hsegs hname

/-! ## The handlers: lemmas on the calls -/

section CallLemmas
variable {σ : Type}

@[simp] theorem State.init_w (s : σ) : (State.init s).w = ResponseWriter.new := rfl
@[simp] theorem State.init_log (s : σ) : (State.init s).log = [] := rfl
@[simp] theorem State.init_s (s : σ) : (State.init s).s = s := rfl
@[simp] theorem ResponseWriter.new_sent : ResponseWriter.new.sent = none := rfl
@[simp] theorem ResponseWriter.new_body : ResponseWriter.new.body = [] := rfl
@[simp] theorem ResponseWriter.new_cookies : ResponseWriter.new.header.cookies = [] := rfl
@[simp] theorem ResponseWriter.new_contentType :
    ResponseWriter.new.header.contentType = none := rfl

@[simp] theorem State.Error_w (st : State σ) (msg : String) (code : Nat) :
    (st.Error msg code).w = st.w.Error msg code := rfl
@[simp] theorem State.Error_log (st : State σ) (msg : String) (code : Nat) :
    (st.Error msg code).log = st.log ++ [Event.Error msg code] := rfl
@[simp] theorem State.Redirect_w (st : State σ) (r : Request) (url : String) (code : Nat) :
    (st.Redirect r url code).w = st.w.Redirect r.Method url code := rfl
@[simp] theorem State.Redirect_log (st : State σ) (r : Request) (url : String) (code : Nat) :
    (st.Redirect r url code).log = st.log ++ [Event.Redirect url code] := rfl
@[simp] theorem State.SetCookie_w (st : State σ) (c : Cookie) :
    (st.SetCookie c).w = st.w.SetCookie c := rfl
@[simp] theorem State.SetCookie_log (st : State σ) (c : Cookie) :
    (st.SetCookie c).log = st.log ++ [Event.SetCookie c] := rfl
@[simp] theorem State.SetCookie_s (st : State σ) (c : Cookie) : (st.SetCookie c).s = st.s := rfl
@[simp] theorem State.Error_s (st : State σ) (msg : String) (code : Nat) :
    (st.Error msg code).s = st.s := rfl
@[simp] theorem State.Execute_w (env : Env σ) (st : State σ) (page : Page) :
    (st.Execute env page).w = st.w.Write (env.render page) := rfl
@[simp] theorem State.Execute_log (env : Env σ) (st : State σ) (page : Page) :
    (st.Execute env page).log = st.log ++ [Event.Execute page] := rfl
@[simp] theorem State.panic_w (st : State σ) (msg : String) : (st.panic msg).w = st.w := rfl
@[simp] theorem State.panic_log (st : State σ) (msg : String) :
    (st.panic msg).log = st.log ++ [Event.panic msg] := rfl

@[simp] theorem State.MakeNonChunkRequest_fst (env : Env σ) (st : State σ)
    (req : BackendRequest) :
    (st.MakeNonChunkRequest env req).1 = (env.MakeNonChunkRequest req st.s).1 := rfl
@[simp] theorem State.MakeNonChunkRequest_w (env : Env σ) (st : State σ)
    (req : BackendRequest) : (st.MakeNonChunkRequest env req).2.w = st.w := rfl
@[simp] theorem State.MakeNonChunkRequest_log (env : Env σ) (st : State σ)
    (req : BackendRequest) :
    (st.MakeNonChunkRequest env req).2.log
      = st.log ++ [Event.MakeNonChunkRequest req (env.MakeNonChunkRequest req st.s).1] := rfl

@[simp] theorem State.clearCookies_w (st : State σ) :
    st.clearCookies.w = (st.w.SetCookie expiredUsername).SetCookie expiredSessionID := rfl
@[simp] theorem State.clearCookies_s (st : State σ) : st.clearCookies.s = st.s := rfl
@[simp] theorem State.clearCookies_log (st : State σ) :
    st.clearCookies.log
      = st.log ++ [Event.SetCookie expiredUsername, Event.SetCookie expiredSessionID] := by
  simp [State.clearCookies, expiredUsername, expiredSessionID]

end CallLemmas

/-! ## C6: logout and the cookies -/

/-- The run of `logoutHandler` for a request that carries a well-formed session. -/
theorem logoutHandler_session {σ : Type} (env : Env σ) (r : Request) (s : σ)
    (hp : r.Path = "/logout") (ha : (getAuth env r).2.2 = none)
    (hm : (env.MarshalBinary (getAuth env r).2.1).2 = none) :
    logoutHandler env r s =
      match (env.MakeNonChunkRequest (logoutRequest env r) s).1 with
      | .error err =>
        ((State.init s).MakeNonChunkRequest env (logoutRequest env r)).2.Error
          ("connection error: " ++ err) 500
      | .ok resp =>
        if resp.Code ≠ 0 then
          if resp.Code = 6 then
            ((State.init s).MakeNonChunkRequest env (logoutRequest env r)).2.Redirect r
              "/login?error=Logged+out+successfully." 302
          else
            ((State.init s).MakeNonChunkRequest env (logoutRequest env r)).2.Error
              (failedText resp) 500
        else
          ((State.init s).MakeNonChunkRequest env (logoutRequest env r)).2.clearCookies.Redirect r
            "/login?error=Logged+out+successfully." 302 := by
  unfold logoutHandler
  simp only [hp, ha, hm, logoutRequest]
  simp

/-- C6, as the code behaves. For a request to /logout: when the session
cookies are missing or malformed, the response carries both expired cookies
whatever the backend does; when the session is well formed, the response
carries exactly the two expired cookies if the backend answers the logout
exchange with code 0, and no cookie at all if the exchange fails with a
connection error or is answered with a non-zero code other than 6. -/
theorem logoutHandler_cookies {σ : Type} (env : Env σ) (r : Request) (s : σ)
    (hp : r.Path = "/logout") :
    ((getAuth env r).2.2 ≠ none →
      expiredUsername ∈ (logoutHandler env r s).w.sentHeader.cookies ∧
      expiredSessionID ∈ (logoutHandler env r s).w.sentHeader.cookies) ∧
    ((getAuth env r).2.2 = none → (env.MarshalBinary (getAuth env r).2.1).2 = none →
      (∀ resp, (env.MakeNonChunkRequest (logoutRequest env r) s).1 = .ok resp → resp.Code = 0 →
        (logoutHandler env r s).w.sentHeader.cookies = [expiredUsername, expiredSessionID]) ∧
      (∀ err, (env.MakeNonChunkRequest (logoutRequest env r) s).1 = .error err →
        (logoutHandler env r s).w.sentHeader.cookies = []) ∧
      (∀ resp, (env.MakeNonChunkRequest (logoutRequest env r) s).1 = .ok resp →
        resp.Code ≠ 0 → resp.Code ≠ 6 →
        (logoutHandler env r s).w.sentHeader.cookies = [])) := by
  constructor
  · intro hauth
    obtain ⟨e, he⟩ := Option.ne_none_iff_exists'.mp hauth
    have hsent : ∀ st : State σ, st.w.sent = some (500,
        { cookies := [expiredUsername, expiredSessionID],
          contentType := some "text/plain; charset=utf-8", location := none }) →
        expiredUsername ∈ st.w.sentHeader.cookies ∧
        expiredSessionID ∈ st.w.sentHeader.cookies := by
      intro st h
      simp [ResponseWriter.sentHeader, h]
    apply hsent
    unfold logoutHandler
    simp only [hp, he]
    simp only [ne_eq, not_true_eq_false, if_false]
    have h1 : ((State.init s).clearCookies.Error ("error: " ++ e) 500).w.sent = some (500,
        { cookies := [expiredUsername, expiredSessionID],
          contentType := some "text/plain; charset=utf-8", location := none }) := by
      simp [Error_sent, SetCookie_sent]
      exact ⟨rfl, rfl⟩
    generalize (State.init s).clearCookies.Error ("error: " ++ e) 500 = st1 at h1 ⊢
    have h2 : (match (env.MarshalBinary (getAuth env r).2.1).2 with
        | some err => st1.clearCookies.Error ("error: " ++ err) 500
        | none => st1).w.sent = some (500,
        { cookies := [expiredUsername, expiredSessionID],
          contentType := some "text/plain; charset=utf-8", location := none }) := by
      split
      · simp [Error_sent, SetCookie_sent, h1]
      · exact h1
    generalize (match (env.MarshalBinary (getAuth env r).2.1).2 with
        | some err => st1.clearCookies.Error ("error: " ++ err) 500
        | none => st1) = st2 at h2 ⊢
    split
    · simp [Error_sent, h2]
    · split
      · split
        · simp [Redirect_sent_some _ _ _ _ _ h2]
        · simp [Error_sent, h2]
      · simp [Redirect_sent_some _ _ _ _ _ (show ((st2.w.SetCookie expiredUsername).SetCookie
          expiredSessionID).sent = _ from h2)]
  · intro ha hm
    rw [logoutHandler_session env r s hp ha hm]
    refine ⟨?_, ?_, ?_⟩
    · intro resp hres hcode
      simp only [hres, hcode]
      simp [Redirect_cookies, SetCookie_sent, SetCookie_cookies]
    · intro err hres
      simp only [hres]
      simp [Error_cookies]
    · intro resp hres h0 h6
      simp only [hres]
      simp [h0, h6, Error_cookies]

/-- C6 as stated fails: with a well-formed session and a backend that cannot
be reached, the response to /logout is the error 500 and sets no cookie. -/
theorem logoutHandler_keeps_cookies_on_connection_error :
    (logoutHandler scriptEnv (request "GET" "/logout" sessionCookies)
      [Reply.err "connection refused"]).w.sentHeader.cookies = [] ∧
    (logoutHandler scriptEnv (request "GET" "/logout" sessionCookies)
      [Reply.err "connection refused"]).w.status = 500 := by
  decide

/-- C6 at a logout the backend accepts, and at one without cookies. -/
theorem logoutHandler_cookies_witness :
    (logoutHandler scriptEnv (request "GET" "/logout" sessionCookies)
      [Reply.response 0 "" []]).w.sentHeader.cookies = [expiredUsername, expiredSessionID] ∧
    expiredUsername ∈ (logoutHandler scriptEnv (request "GET" "/logout" [])
      [Reply.err "connection refused"]).w.sentHeader.cookies :=
  ⟨((logoutHandler_cookies scriptEnv (request "GET" "/logout" sessionCookies)
      [Reply.response 0 "" []] rfl).2 (by decide) (by decide)).1 ⟨0, "", []⟩ rfl rfl,
   ((logoutHandler_cookies scriptEnv (request "GET" "/logout" [])
      [Reply.err "connection refused"] rfl).1 (by decide)).1⟩

/-! ## The relay loops -/

section Relay
variable {σ : Type}

@[simp] theorem State.GetChunkInfo_fst (env : Env σ) (st : State σ) :
    (st.GetChunkInfo env).1 = (env.GetChunkInfo st.s).1 := rfl
@[simp] theorem State.GetChunkInfo_w (env : Env σ) (st : State σ) :
    (st.GetChunkInfo env).2.w = st.w := rfl
@[simp] theorem State.GetChunkInfo_log (env : Env σ) (st : State σ) :
    (st.GetChunkInfo env).2.log = st.log ++ [Event.GetChunkInfo (env.GetChunkInfo st.s).1] := rfl
@[simp] theorem State.GetChunk_fst (env : Env σ) (st : State σ) (size : Nat) :
    (st.GetChunk env size).1 = (env.GetChunk size st.s).1 := rfl
@[simp] theorem State.GetChunk_w (env : Env σ) (st : State σ) (size : Nat) :
    (st.GetChunk env size).2.w = st.w := rfl
@[simp] theorem State.GetChunk_log (env : Env σ) (st : State σ) (size : Nat) :
    (st.GetChunk env size).2.log = st.log ++ [Event.GetChunk size (env.GetChunk size st.s).1] :=
  rfl
@[simp] theorem State.Write_fst (env : Env σ) (st : State σ) (buf : List Nat) :
    (st.Write env buf).1 = (env.Write buf st.s).1 := rfl
@[simp] theorem State.Write_w (env : Env σ) (st : State σ) (buf : List Nat) :
    (st.Write env buf).2.w = st.w.Write buf := rfl
@[simp] theorem State.Write_log (env : Env σ) (st : State σ) (buf : List Nat) :
    (st.Write env buf).2.log = st.log ++ [Event.Write buf (env.Write buf st.s).1] := rfl

theorem writeFrames_cons (w : ResponseWriter) (f : Frame) (fs : List Frame) :
    writeFrames w (f :: fs) = writeFrames (w.Write f.payload) fs := rfl

theorem writeFrames_append (w : ResponseWriter) (fs gs : List Frame) :
    writeFrames w (fs ++ gs) = writeFrames (writeFrames w fs) gs := by
  simp [writeFrames, List.foldl_append]

theorem writeFrames_body (w : ResponseWriter) (fs : List Frame) :
    (writeFrames w fs).body = w.body ++ fs.flatMap (fun f => f.payload) := by
  induction fs generalizing w with
  | nil => simp [writeFrames]
  | cons f fs ih => simp [writeFrames_cons, ih, Write_body]

theorem writeFrames_header (w : ResponseWriter) (fs : List Frame) :
    (writeFrames w fs).header = w.header := by
  induction fs generalizing w with
  | nil => rfl
  | cons f fs ih => simp [writeFrames_cons, ih, Write_header]


/-- The inner loop for `n` frames. If it runs to its end it has consumed
exactly `n` frames, each by one `GetChunkInfo`, one `GetChunk` of the
announced size and one `Write` of the buffer, and nothing else happened. If
the handler returned inside the loop, fewer than `n` frames were relayed, the
calls of the failed frame follow them, and the handler printed its error to
the sink. -/
theorem relayChunks_spec (env : Env σ) (n : Nat) (st : State σ) :
    match driveHandler.relayChunks env n st with
    | .ok st1 =>
      ∃ fs : List Frame, fs.length = n ∧ (∀ f ∈ fs, f.fromBackend env) ∧
        st1.log = st.log ++ fs.flatMap Frame.events ∧ st1.w = writeFrames st.w fs
    | .error st1 =>
      ∃ (fs : List Frame) (tail : List Event) (err : String) (handed : Option Frame),
        fs.length < n ∧ (∀ f ∈ fs, f.fromBackend env) ∧ FailedFrame env err tail handed ∧
        st1.log = st.log ++ fs.flatMap Frame.events ++ tail ++
          [Event.Error ("connection error: " ++ err) 500] ∧
        st1.w = (writeFrames st.w (fs ++ handed.toList)).Error ("connection error: " ++ err) 500 := by
  induction n generalizing st with
  | zero => exact ⟨[], rfl, by simp, by simp, rfl⟩
  | succ n ih =>
    unfold driveHandler.relayChunks
    simp only [State.GetChunkInfo_fst, State.GetChunk_fst, State.Write_fst]
    cases hinfo : (env.GetChunkInfo st.s).1 with
    | error err =>
      refine ⟨[], _, err, none, by simp, by simp, FailedFrame.info, ?_, ?_⟩
      · simp [hinfo]
      · simp [writeFrames]
    | ok ns =>
      obtain ⟨name, size⟩ := ns
      simp only
      cases hchunk : (env.GetChunk size (st.GetChunkInfo env).2.s).1 with
      | error err =>
        refine ⟨[], _, err, none, by simp, by simp, FailedFrame.chunk name size, ?_, ?_⟩
        · simp [hinfo, hchunk]
        · simp [writeFrames]
      | ok buf =>
        simp only
        have hfrom : Frame.fromBackend env ⟨name, size, buf⟩ := ⟨_, hchunk⟩
        cases hwr : (env.Write buf ((st.GetChunkInfo env).2.GetChunk env size).2.s).1 with
        | some err =>
          refine ⟨[], _, err, some ⟨name, size, buf⟩, by simp, by simp,
            FailedFrame.write ⟨name, size, buf⟩ hfrom, ?_, ?_⟩
          · simp [hinfo, hchunk, hwr]
          · simp [writeFrames]
        | none =>
          simp only
          have hrec := ih (((st.GetChunkInfo env).2.GetChunk env size).2.Write env buf).2
          have hlog : ((((st.GetChunkInfo env).2.GetChunk env size).2.Write env buf).2).log
              = st.log ++ Frame.events ⟨name, size, buf⟩ := by
            simp [Frame.events, hinfo, hchunk, hwr]
          have hw : ((((st.GetChunkInfo env).2.GetChunk env size).2.Write env buf).2).w
              = st.w.Write buf := by simp
          cases hres : driveHandler.relayChunks env n
              (((st.GetChunkInfo env).2.GetChunk env size).2.Write env buf).2 with
          | ok st1 =>
            rw [hres] at hrec
            obtain ⟨fs, hlen, hfs, hl, hwf⟩ := hrec
            refine ⟨⟨name, size, buf⟩ :: fs, by simp [hlen], ?_, ?_, ?_⟩
            · intro f hf
              rcases List.mem_cons.mp hf with rfl | hf
              · exact hfrom
              · exact hfs f hf
            · rw [hl, hlog]; simp
            · rw [hwf, hw]; rfl
          | error st1 =>
            rw [hres] at hrec
            obtain ⟨fs, tail, err, handed, hlen, hfs, hfail, hl, hwf⟩ := hrec
            refine ⟨⟨name, size, buf⟩ :: fs, tail, err, handed, by simp; omega, ?_, hfail, ?_, ?_⟩
            · intro f hf
              rcases List.mem_cons.mp hf with rfl | hf
              · exact hfrom
              · exact hfs f hf
            · rw [hl, hlog]; simp
            · rw [hwf, hw]; rfl

/-- The outer loop over the transfer header. If it runs to its end, the
frames consumed are one group per declared path, in the declared order, and
the group of a path has exactly `NumChunks` frames. If the handler returned
inside, some frames were relayed, the calls of the failed frame follow, and
the handler printed its error to the sink. -/
theorem relay_spec (env : Env σ) (infos : List ChunkInfo) (st : State σ) :
    match driveHandler.relay env infos st with
    | .ok st1 =>
      ∃ fss : List (List Frame),
        List.Forall₂ (fun ci fs => fs.length = ci.NumChunks.toNat) infos fss ∧
        (∀ f ∈ fss.flatten, f.fromBackend env) ∧
        st1.log = st.log ++ fss.flatten.flatMap Frame.events ∧
        st1.w = writeFrames st.w fss.flatten
    | .error st1 =>
      ∃ (fs : List Frame) (tail : List Event) (err : String) (handed : Option Frame),
        (∀ f ∈ fs, f.fromBackend env) ∧ FailedFrame env err tail handed ∧
        st1.log = st.log ++ fs.flatMap Frame.events ++ tail ++
          [Event.Error ("connection error: " ++ err) 500] ∧
        st1.w = (writeFrames st.w (fs ++ handed.toList)).Error ("connection error: " ++ err) 500 := by
  induction infos generalizing st with
  | nil => exact ⟨[], List.Forall₂.nil, by simp, by simp, rfl⟩
  | cons ci rest ih =>
    unfold driveHandler.relay
    have hinner := relayChunks_spec env ci.NumChunks.toNat st
    cases hres : driveHandler.relayChunks env ci.NumChunks.toNat st with
    | error st1 =>
      rw [hres] at hinner
      obtain ⟨fs, tail, err, handed, _, hfs, hfail, hl, hwf⟩ := hinner
      exact ⟨fs, tail, err, handed, hfs, hfail, hl, hwf⟩
    | ok st1 =>
      rw [hres] at hinner
      obtain ⟨fs, hlen, hfs, hl, hwf⟩ := hinner
      simp only
      have hrec := ih st1
      cases hres2 : driveHandler.relay env rest st1 with
      | ok st2 =>
        rw [hres2] at hrec
        obtain ⟨fss, hall, hfss, hl2, hwf2⟩ := hrec
        refine ⟨fs :: fss, List.Forall₂.cons hlen hall, ?_, ?_, ?_⟩
        · intro f hf
          simp only [List.flatten_cons, List.mem_append] at hf
          rcases hf with hf | hf
          · exact hfs f hf
          · exact hfss f hf
        · rw [hl2, hl]; simp
        · rw [hwf2, hwf]; simp [writeFrames_append]
      | error st2 =>
        rw [hres2] at hrec
        obtain ⟨gs, tail, err, handed, hgs, hfail, hl2, hwf2⟩ := hrec
        refine ⟨fs ++ gs, tail, err, handed, ?_, hfail, ?_, ?_⟩
        · intro f hf
          rcases List.mem_append.mp hf with hf | hf
          · exact hfs f hf
          · exact hgs f hf
        · rw [hl2, hl]; simp
        · rw [hwf2, hwf]; simp [writeFrames_append]

end Relay

/-! ## The transfer of a file -/

section Transfer
variable {σ : Type}

@[simp] theorem State.MakeConnection_fst (env : Env σ) (st : State σ) :
    (st.MakeConnection env).1 = (env.MakeConnection st.s).1 := rfl
@[simp] theorem State.MakeConnection_w (env : Env σ) (st : State σ) :
    (st.MakeConnection env).2.w = st.w := rfl
@[simp] theorem State.MakeConnection_log (env : Env σ) (st : State σ) :
    (st.MakeConnection env).2.log = st.log ++ [Event.MakeConnection (env.MakeConnection st.s).1] :=
  rfl
@[simp] theorem State.SendRequestData_fst (env : Env σ) (st : State σ) (req : BackendRequest) :
    (st.SendRequestData env req).1 = (env.SendRequestData req st.s).1 := rfl
@[simp] theorem State.SendRequestData_w (env : Env σ) (st : State σ) (req : BackendRequest) :
    (st.SendRequestData env req).2.w = st.w := rfl
@[simp] theorem State.SendRequestData_log (env : Env σ) (st : State σ) (req : BackendRequest) :
    (st.SendRequestData env req).2.log
      = st.log ++ [Event.SendRequestData req (env.SendRequestData req st.s).1] := rfl
@[simp] theorem State.ReceiveHeader_fst (env : Env σ) (st : State σ) :
    (st.ReceiveHeader env).1 = (env.ReceiveHeader st.s).1 := rfl
@[simp] theorem State.ReceiveHeader_w (env : Env σ) (st : State σ) :
    (st.ReceiveHeader env).2.w = st.w := rfl
@[simp] theorem State.ReceiveHeader_log (env : Env σ) (st : State σ) :
    (st.ReceiveHeader env).2.log = st.log ++ [Event.ReceiveHeader (env.ReceiveHeader st.s).1] :=
  rfl
@[simp] theorem State.GetChunkRequestInfo_fst (env : Env σ) (st : State σ) :
    (st.GetChunkRequestInfo env).1 = (env.GetChunkRequestInfo st.s).1 := rfl
@[simp] theorem State.GetChunkRequestInfo_w (env : Env σ) (st : State σ) :
    (st.GetChunkRequestInfo env).2.w = st.w := rfl
@[simp] theorem State.GetChunkRequestInfo_log (env : Env σ) (st : State σ) :
    (st.GetChunkRequestInfo env).2.log
      = st.log ++ [Event.GetChunkRequestInfo (env.GetChunkRequestInfo st.s).1] := rfl
@[simp] theorem State.GetFooter_fst (env : Env σ) (st : State σ) :
    (st.GetFooter env).1 = (env.GetFooter st.s).1 := rfl
@[simp] theorem State.GetFooter_w (env : Env σ) (st : State σ) :
    (st.GetFooter env).2.w = st.w := rfl
@[simp] theorem State.GetFooter_log (env : Env σ) (st : State σ) :
    (st.GetFooter env).2.log = st.log ++ [Event.GetFooter (env.GetFooter st.s).1] := rfl
@[simp] theorem State.ReceiveResponse_fst (env : Env σ) (st : State σ) :
    (st.ReceiveResponse env).1 = (env.ReceiveResponse st.s).1 := rfl
@[simp] theorem State.ReceiveResponse_w (env : Env σ) (st : State σ) :
    (st.ReceiveResponse env).2.w = st.w := rfl
@[simp] theorem State.ReceiveResponse_log (env : Env σ) (st : State σ) :
    (st.ReceiveResponse env).2.log
      = st.log ++ [Event.ReceiveResponse (env.ReceiveResponse st.s).1] := rfl

/-- The end of a transfer: the calls made and the writer they leave. -/
theorem finish_spec (env : Env σ) (r : Request) (st : State σ) :
    ∃ post, Ending r post ∧ (driveHandler.finish env r st).log = st.log ++ post ∧
      (driveHandler.finish env r st).w = post.foldl (Event.apply r.Method) st.w := by
  unfold driveHandler.finish
  simp only [State.GetFooter_fst, State.ReceiveResponse_fst]
  cases hf : (env.GetFooter st.s).1 with
  | some err =>
    exact ⟨_, Ending.footer err, by simp [hf], by simp [Event.apply]⟩
  | none =>
    simp only
    cases hr : (env.ReceiveResponse (st.GetFooter env).2.s).1 with
    | error err => exact ⟨_, Ending.response err, by simp [hf, hr], by simp [Event.apply]⟩
    | ok resp =>
      simp only
      by_cases h0 : resp.Code = 0
      · exact ⟨_, Ending.done resp h0, by simp [hf, hr, h0], by simp [Event.apply, h0]⟩
      · by_cases h6 : resp.Code = 6
        · exact ⟨_, Ending.reauth resp h6, by simp [hf, hr, h0, h6],
            by simp [Event.apply, h0, h6]⟩
        · exact ⟨_, Ending.failed resp h0 h6, by simp [hf, hr, h0, h6],
            by simp [Event.apply, h0, h6]⟩

/-- The `isFile` branch: the opening fails, or the relay of a frame fails, or
the loops run to their end, one group of `NumChunks` frames per declared path,
and the transfer ends in one of the five ways of `Ending`. -/
theorem file_spec (env : Env σ) (r : Request) (st : State σ) (username : String)
    (bytes : List Nat) (driveName : String) (path : List String) :
    (∃ err evs, SetupFailure (readfilesRequest username bytes driveName path) err evs ∧
      (driveHandler.file env r st username bytes driveName path).log
        = st.log ++ evs ++ [Event.Error ("connection error: " ++ err) 500] ∧
      (driveHandler.file env r st username bytes driveName path).w
        = st.w.Error ("connection error: " ++ err) 500) ∨
    (∃ infos fs tail err handed, (∀ f ∈ fs, Frame.fromBackend env f) ∧
      FailedFrame env err tail handed ∧
      (driveHandler.file env r st username bytes driveName path).log
        = st.log ++ transferSetup (readfilesRequest username bytes driveName path) infos ++
          fs.flatMap Frame.events ++ tail ++ [Event.Error ("connection error: " ++ err) 500] ∧
      (driveHandler.file env r st username bytes driveName path).w
        = (writeFrames st.w (fs ++ handed.toList)).Error ("connection error: " ++ err) 500) ∨
    (∃ infos fss post,
      List.Forall₂ (fun (ci : ChunkInfo) (fs : List Frame) => fs.length = ci.NumChunks.toNat)
        infos fss ∧
      (∀ f ∈ fss.flatten, Frame.fromBackend env f) ∧ Ending r post ∧
      (driveHandler.file env r st username bytes driveName path).log
        = st.log ++ transferSetup (readfilesRequest username bytes driveName path) infos ++
          fss.flatten.flatMap Frame.events ++ post ∧
      (driveHandler.file env r st username bytes driveName path).w
        = post.foldl (Event.apply r.Method) (writeFrames st.w fss.flatten)) := by
  unfold driveHandler.file
  simp only [State.MakeConnection_fst, State.SendRequestData_fst, State.ReceiveHeader_fst,
    State.GetChunkRequestInfo_fst]
  cases hc : (env.MakeConnection st.s).1 with
  | some err => exact Or.inl ⟨err, _, SetupFailure.conn, by simp [hc], by simp⟩
  | none =>
    simp only
    cases hs : (env.SendRequestData (readfilesRequest username bytes driveName path)
        (st.MakeConnection env).2.s).1 with
    | some err =>
      refine Or.inl ⟨err, _, SetupFailure.send, ?_, ?_⟩
      · simp only [readfilesRequest] at hs
        simp [hc, hs, readfilesRequest]
      · simp only [readfilesRequest] at hs
        simp [hs]
    | none =>
      simp only [readfilesRequest] at hs
      simp only [hs]
      cases hh : (env.ReceiveHeader ((st.MakeConnection env).2.SendRequestData env
          (readfilesRequest username bytes driveName path)).2.s).1 with
      | some err =>
        simp only [readfilesRequest] at hh
        refine Or.inl ⟨err, _, SetupFailure.header, ?_, ?_⟩
        · simp [hc, hs, hh, readfilesRequest]
        · simp [hh]
      | none =>
        simp only [readfilesRequest] at hh
        simp only [hh]
        cases hi : (env.GetChunkRequestInfo (((st.MakeConnection env).2.SendRequestData env
            (readfilesRequest username bytes driveName path)).2.ReceiveHeader env).2.s).1 with
        | error err =>
          simp only [readfilesRequest] at hi
          refine Or.inl ⟨err, _, SetupFailure.info, ?_, ?_⟩
          · simp [hc, hs, hh, hi, readfilesRequest]
          · simp [hi]
        | ok infos =>
          simp only [readfilesRequest] at hi
          simp only [hi]
          have hrel := relay_spec env infos ((((st.MakeConnection env).2.SendRequestData env
            (readfilesRequest username bytes driveName path)).2.ReceiveHeader env).2.GetChunkRequestInfo
              env).2
          simp only [readfilesRequest] at hrel
          have hlog0 : ((((st.MakeConnection env).2.SendRequestData env
              (readfilesRequest username bytes driveName path)).2.ReceiveHeader
                env).2.GetChunkRequestInfo env).2.log
              = st.log ++ transferSetup (readfilesRequest username bytes driveName path) infos := by
            simp only [readfilesRequest] at *
            simp [hc, hs, hh, hi, transferSetup]
          simp only [readfilesRequest] at hlog0
          split at hrel
          · rename_i st1 hres
            obtain ⟨fss, hall, hfrom, hl, hw⟩ := hrel
            simp only [hres]
            obtain ⟨post, hend, hpl, hpw⟩ := finish_spec env r st1
            refine Or.inr (Or.inr ⟨infos, fss, post, hall, hfrom, hend, ?_, ?_⟩)
            · rw [hpl, hl, hlog0]; simp [readfilesRequest]
            · rw [hpw, hw]; simp
          · rename_i st1 hres
            obtain ⟨fs, tail, err, handed, hfrom, hfail, hl, hw⟩ := hrel
            simp only [hres]
            refine Or.inr (Or.inl ⟨infos, fs, tail, err, handed, hfrom, hfail, ?_, ?_⟩)
            · rw [hl, hlog0]; simp [readfilesRequest]
            · rw [hw]; simp

end Transfer

/-! ## The branches of `driveHandler` -/

section Branches
variable {σ : Type}

theorem info_noStream (env : Env σ) (r : Request) (s : σ) (username : String)
    (bytes : List Nat) :
    ∀ e ∈ (driveHandler.info env r (State.init s) username bytes).log, e.isStream = false := by
  unfold driveHandler.info
  simp only [State.MakeNonChunkRequest_fst]
  repeat' split
  all_goals simp [Event.isStream]

theorem dir_noStream (env : Env σ) (r : Request) (st : State σ) (username : String)
    (bytes : List Nat) (driveName : String) (path : List String)
    (h : ∀ e ∈ st.log, e.isStream = false) :
    ∀ e ∈ (driveHandler.dir env r st username bytes driveName path).log, e.isStream = false := by
  unfold driveHandler.dir
  simp only [State.MakeNonChunkRequest_fst]
  repeat' split
  all_goals
    intro e he
    simp only [State.Error_log, State.Redirect_log, State.panic_log, State.Execute_log,
      State.MakeNonChunkRequest_log, List.mem_append, List.mem_singleton] at he
    rcases he with (he | he) | he
    · exact h e he
    · rw [he]; rfl
    · rw [he]; rfl

/-- A run of `driveHandler` either makes no call of the streaming exchange, or
is a transfer started after a `stat` exchange answered with code 0, nothing
being written yet. -/
theorem driveHandler_branches (env : Env σ) (r : Request) (s : σ) :
    (∀ e ∈ (driveHandler env r s).log, e.isStream = false) ∨
    (∃ username bytes driveName path resp s1, resp.Code = 0 ∧
      driveHandler env r s = driveHandler.file env r
        { w := ResponseWriter.new,
          log := [Event.MakeNonChunkRequest (statRequest username bytes driveName path)
            (.ok resp)],
          s := s1 } username bytes driveName path) := by
  unfold driveHandler
  simp only
  split
  · left; simp [Event.isStream]
  · split
    · left; simp [Event.isStream]
    · split
      · left; simp [Event.isStream]
      · rename_i driveName path _
        split
        · left; simp [Event.isStream]
        · split
          · left; simp [Event.isStream]
          · split
            · left; exact info_noStream env r s _ _
            · split
              · unfold driveHandler.stat
                simp only [State.MakeNonChunkRequest_fst]
                cases hres : (env.MakeNonChunkRequest
                    ⟨Auth.session (getAuth env r).1 (env.MarshalBinary (getAuth env r).2.1).1,
                      "stat", [("paths", Param.strs [stringsJoin path]),
                        ("drive", Param.str driveName)], 5⟩ (State.init s).s).1 with
                | error err => left; simp [Event.isStream]
                | ok resp =>
                  have hst : ((State.init s).MakeNonChunkRequest env
                      ⟨Auth.session (getAuth env r).1 (env.MarshalBinary (getAuth env r).2.1).1,
                        "stat", [("paths", Param.strs [stringsJoin path]),
                          ("drive", Param.str driveName)], 5⟩).2
                      = { w := ResponseWriter.new,
                          log := [Event.MakeNonChunkRequest (statRequest (getAuth env r).1
                            (env.MarshalBinary (getAuth env r).2.1).1 driveName path) (.ok resp)],
                          s := (env.MakeNonChunkRequest
                            ⟨Auth.session (getAuth env r).1
                              (env.MarshalBinary (getAuth env r).2.1).1,
                              "stat", [("paths", Param.strs [stringsJoin path]),
                                ("drive", Param.str driveName)], 5⟩ s).2 } := by
                    simp only [State.MakeNonChunkRequest, State.init, statRequest,
                      List.nil_append]
                    simp only [State.init] at hres
                    rw [hres]
                  simp only
                  split
                  · left
                    split <;> simp [Event.isStream]
                  · rename_i hcode
                    have h0 : resp.Code = 0 := by simpa using hcode
                    split
                    · left; simp [Event.isStream]
                    · split
                      · split
                        · left; simp [Event.isStream]
                        · split
                          · right
                            exact ⟨_, _, _, _, resp, _, h0, by rw [hst]⟩
                          · left
                            apply dir_noStream
                            simp [Event.isStream]
                      · left; simp [Event.isStream]
              · left; simp

end Branches

/-! ## C1: code 6 at a non-streaming exchange -/

section Code6
variable {σ : Type}

theorem redirectsTo_redirect (st : State σ) (r : Request) (url : String)
    (hsent : st.w.sent = none) (hlog : ∀ e ∈ st.log, e.isError = false) :
    redirectsTo (st.Redirect r url 302) url := by
  refine ⟨Redirect_status _ _ _ _ hsent, Redirect_location _ _ _ _ hsent, ?_⟩
  intro e he
  simp only [State.Redirect_log, List.mem_append, List.mem_singleton] at he
  rcases he with he | he
  · exact hlog e he
  · rw [he]; rfl

/-- The branch of the drive list: no exchange answered with code 6, or the
redirect to the login view with the path of the request. -/
theorem info_exits (env : Env σ) (r : Request) (s : σ) (username : String) (bytes : List Nat) :
    (∀ e ∈ (driveHandler.info env r (State.init s) username bytes).log, e.code6 = false) ∨
    redirectsTo (driveHandler.info env r (State.init s) username bytes)
      ("/login?redirect=" ++ r.Path) := by
  unfold driveHandler.info
  simp only [State.MakeNonChunkRequest_fst]
  cases hres : (env.MakeNonChunkRequest ⟨Auth.session username bytes, "info", [], 5⟩
      (State.init s).s).1 with
  | error err =>
    left
    simp only [State.init_s] at hres
    simp [hres, Event.code6]
  | ok resp =>
    simp only [State.init_s] at hres
    simp only
    by_cases h6 : resp.Code = 6
    · right
      have h0 : resp.Code ≠ 0 := by omega
      simp only [h0, h6, ne_eq, not_false_eq_true, if_true]
      exact redirectsTo_redirect _ r _ rfl (by simp [hres, Event.isError])
    · left
      repeat' split
      all_goals simp [hres, Event.code6, h6]

/-- The branch of the directory listing, entered after exchanges answered
with code 0 and before anything is written. -/
theorem dir_exits (env : Env σ) (r : Request) (st : State σ) (username : String)
    (bytes : List Nat) (driveName : String) (path : List String)
    (hsent : st.w.sent = none) (herr : ∀ e ∈ st.log, e.isError = false)
    (h6 : ∀ e ∈ st.log, e.code6 = false) :
    (∀ e ∈ (driveHandler.dir env r st username bytes driveName path).log, e.code6 = false) ∨
    redirectsTo (driveHandler.dir env r st username bytes driveName path)
      ("/login?redirect=" ++ r.Path) := by
  unfold driveHandler.dir
  simp only [State.MakeNonChunkRequest_fst]
  cases hres : (env.MakeNonChunkRequest ⟨Auth.session username bytes, "listdir",
      [("drive", Param.str driveName), ("path", Param.str (stringsJoin path))], 5⟩ st.s).1 with
  | error err =>
    left
    intro e he
    simp only [State.Error_log, State.MakeNonChunkRequest_log, List.mem_append,
      List.mem_singleton] at he
    rcases he with (he | he) | he
    · exact h6 e he
    · rw [he, hres]; rfl
    · rw [he]; rfl
  | ok resp =>
    simp only
    by_cases hc : resp.Code = 6
    · right
      have h0 : resp.Code ≠ 0 := by omega
      simp only [h0, hc, ne_eq, not_false_eq_true, if_true]
      refine redirectsTo_redirect _ r _ hsent ?_
      intro e he
      simp only [State.MakeNonChunkRequest_log, List.mem_append, List.mem_singleton] at he
      rcases he with he | he
      · exact herr e he
      · rw [he]; rfl
    · left
      repeat' split
      all_goals
        intro e he
        simp only [State.Error_log, State.Redirect_log, State.panic_log, State.Execute_log,
          State.MakeNonChunkRequest_log, List.mem_append, List.mem_singleton] at he
        rcases he with (he | he) | he
        · exact h6 e he
        · rw [he, hres]; simp [Event.code6, hc]
        · rw [he]; rfl

theorem events_not_code6 (fs : List Frame) : ∀ e ∈ fs.flatMap Frame.events, e.code6 = false := by
  intro e he
  obtain ⟨f, _, hf⟩ := List.mem_flatMap.mp he
  simp only [Frame.events, List.mem_cons, List.mem_singleton, List.mem_nil_iff, or_false] at hf
  rcases hf with rfl | rfl | rfl <;> rfl

/-- The transfer of a file makes no non-streaming exchange. -/
theorem file_exits (env : Env σ) (r : Request) (st : State σ) (username : String)
    (bytes : List Nat) (driveName : String) (path : List String)
    (h6 : ∀ e ∈ st.log, e.code6 = false) :
    ∀ e ∈ (driveHandler.file env r st username bytes driveName path).log, e.code6 = false := by
  rcases file_spec env r st username bytes driveName path with
    ⟨err, evs, hfail, hlog, _⟩ | ⟨infos, fs, tail, err, handed, _, hfail, hlog, _⟩ |
    ⟨infos, fss, post, _, _, hend, hlog, _⟩
  · rw [hlog]
    intro e he
    simp only [List.mem_append, List.mem_singleton] at he
    rcases he with (he | he) | he
    · exact h6 e he
    · cases hfail <;> simp at he <;> rcases he with rfl | rfl | rfl | rfl <;> rfl
    · rw [he]; rfl
  · rw [hlog]
    intro e he
    simp only [List.mem_append, List.mem_singleton] at he
    rcases he with (((he | he) | he) | he) | he
    · exact h6 e he
    · simp [transferSetup] at he
      rcases he with rfl | rfl | rfl | rfl <;> rfl
    · exact events_not_code6 fs e he
    · cases hfail <;> simp at he <;> rcases he with rfl | rfl | rfl <;> rfl
    · rw [he]; rfl
  · rw [hlog]
    intro e he
    simp only [List.mem_append] at he
    rcases he with ((he | he) | he) | he
    · exact h6 e he
    · simp [transferSetup] at he
      rcases he with rfl | rfl | rfl | rfl <;> rfl
    · exact events_not_code6 _ e he
    · cases hend <;> simp at he <;> rcases he with rfl | rfl | rfl <;> rfl

/-- A run of `driveHandler` either has no exchange answered with code 6, or
is the redirect to the login view with the path of the request. -/
theorem driveHandler_exits (env : Env σ) (r : Request) (s : σ) :
    (∀ e ∈ (driveHandler env r s).log, e.code6 = false) ∨
    redirectsTo (driveHandler env r s) ("/login?redirect=" ++ r.Path) := by
  unfold driveHandler
  simp only
  split
  · left; simp [Event.code6]
  · split
    · left; simp [Event.code6]
    · split
      · left; simp [Event.code6]
      · rename_i driveName path _
        split
        · left; simp [Event.code6]
        · split
          · left; simp [Event.code6]
          · split
            · exact info_exits env r s _ _
            · split
              · unfold driveHandler.stat
                simp only [State.MakeNonChunkRequest_fst]
                cases hres : (env.MakeNonChunkRequest
                    ⟨Auth.session (getAuth env r).1 (env.MarshalBinary (getAuth env r).2.1).1,
                      "stat", [("paths", Param.strs [stringsJoin path]),
                        ("drive", Param.str driveName)], 5⟩ (State.init s).s).1 with
                | error err =>
                  left
                  simp only [State.init_s] at hres
                  simp [hres, Event.code6]
                | ok resp =>
                  simp only [State.init_s] at hres
                  simp only
                  by_cases h6 : resp.Code = 6
                  · right
                    have h0 : resp.Code ≠ 0 := by omega
                    simp only [h0, h6, ne_eq, not_false_eq_true, if_true]
                    exact redirectsTo_redirect _ r _ rfl (by simp [hres, Event.isError])
                  · have hlog6 : ∀ e ∈ ((State.init s).MakeNonChunkRequest env
                        ⟨Auth.session (getAuth env r).1
                          (env.MarshalBinary (getAuth env r).2.1).1,
                          "stat", [("paths", Param.strs [stringsJoin path]),
                            ("drive", Param.str driveName)], 5⟩).2.log, e.code6 = false := by
                      simp [hres, Event.code6, h6]
                    have hlogE : ∀ e ∈ ((State.init s).MakeNonChunkRequest env
                        ⟨Auth.session (getAuth env r).1
                          (env.MarshalBinary (getAuth env r).2.1).1,
                          "stat", [("paths", Param.strs [stringsJoin path]),
                            ("drive", Param.str driveName)], 5⟩).2.log, e.isError = false := by
                      simp [hres, Event.isError]
                    split
                    · left
                      simp [hres, Event.code6, h6]
                    · split
                      · left; simp [hres, Event.code6, h6]
                      · split
                        · split
                          · left; simp [hres, Event.code6, h6]
                          · split
                            · left
                              exact file_exits env r _ _ _ _ _ hlog6
                            · exact dir_exits env r _ _ _ _ _ rfl hlogE hlog6
                        · left; simp [hres, Event.code6, h6]
              · left; simp

end Code6

section Code6Login
variable {σ : Type}

/-- A run of `loginHandler` either has no exchange answered with code 6, or
is the redirect to the login view with the path of the request, `/login`, and
the message of the backend. -/
theorem loginHandler_exits (env : Env σ) (r : Request) (s : σ) :
    (∀ e ∈ (loginHandler env r s).log, e.code6 = false) ∨
    (∃ req resp, Event.MakeNonChunkRequest req (.ok resp) ∈ (loginHandler env r s).log ∧
      r.Path = "/login" ∧
      redirectsTo (loginHandler env r s)
        ("/login?redirect=" ++ r.Path ++ "&error=" ++ resp.String_)) := by
  unfold loginHandler
  simp only [State.MakeNonChunkRequest_fst]
  split
  · left; simp [Event.code6]
  · rename_i hpath
    have hp : r.Path = "/login" := by simpa using hpath
    split
    · left
      split <;> simp [Event.code6]
    · split
      · split
        · left; simp [Event.code6]
        · cases hres : (env.MakeNonChunkRequest
              ⟨Auth.user (r.FormValue "username") (r.FormValue "password"), "login", [], 5⟩
              (State.init s).s).1 with
          | error err =>
            left
            simp only [State.init_s] at hres
            simp [hres, Event.code6]
          | ok resp =>
            simp only [State.init_s] at hres
            simp only
            by_cases h6 : resp.Code = 6
            · right
              have h0 : resp.Code ≠ 0 := by omega
              rw [if_pos h0, if_pos h6]
              refine ⟨⟨Auth.user (r.FormValue "username") (r.FormValue "password"), "login",
                [], 5⟩, resp, ?_, hp, redirectsTo_redirect _ r _ rfl
                (by simp [hres, Event.isError])⟩
              simp [hres]
            · left
              repeat' split
              all_goals simp [hres, Event.code6, h6]
      · left; simp [Event.code6]

/-- A run of `logoutHandler` for a request with a well-formed session either
has no exchange answered with code 6, or is the redirect to the login view
with the message "Logged out successfully." and no `redirect` parameter. -/
theorem logoutHandler_exits (env : Env σ) (r : Request) (s : σ)
    (ha : (getAuth env r).2.2 = none)
    (hm : (env.MarshalBinary (getAuth env r).2.1).2 = none) :
    (∀ e ∈ (logoutHandler env r s).log, e.code6 = false) ∨
    redirectsTo (logoutHandler env r s) "/login?error=Logged+out+successfully." := by
  by_cases hp : r.Path = "/logout"
  · rw [logoutHandler_session env r s hp ha hm]
    cases hres : (env.MakeNonChunkRequest (logoutRequest env r) s).1 with
    | error err =>
      left
      simp [hres, Event.code6]
    | ok resp =>
      simp only
      by_cases h6 : resp.Code = 6
      · right
        have h0 : resp.Code ≠ 0 := by omega
        simp only [h0, h6, ne_eq, not_false_eq_true, if_true]
        exact redirectsTo_redirect _ r _ rfl (by simp [hres, Event.isError])
      · left
        split
        · simp [hres, Event.code6, h6]
        · simp [hres, Event.code6, h6]
  · left
    unfold logoutHandler
    simp [hp, Event.code6]

end Code6Login

theorem splitChars_whole (sep : Char) (e : List Char) (h : sep ∉ e) :
    splitChars sep e = [e] := by
  induction e with
  | nil => rfl
  | cons c cs ih =>
    have hc : c ≠ sep := fun hc => h (hc ▸ List.mem_cons_self _ _)
    have hcs : sep ∉ cs := fun hm => h (List.mem_cons_of_mem _ hm)
    simp [splitChars, hc, ih hcs]

theorem splitChars_cut (sep : Char) (e rest : List Char) (h : sep ∉ e) :
    splitChars sep (e ++ sep :: rest) = e :: splitChars sep rest := by
  induction e with
  | nil => simp [splitChars]
  | cons c cs ih =>
    have hc : c ≠ sep := fun hc => h (hc ▸ List.mem_cons_self _ _)
    have hcs : sep ∉ cs := fun hm => h (List.mem_cons_of_mem _ hm)
    simp [splitChars, hc, ih hcs]

theorem querySafe_no_ampersand (p : String) (h : querySafe p = true) : '&' ∉ p.data := by
  intro hm
  unfold querySafe at h
  rw [List.all_eq_true] at h
  have := h '&' hm
  simp at this

/-- The `redirect` parameter of `/login?redirect=` followed by a path without
`&` is the path. -/
theorem queryParam_redirect (p : String) (h : '&' ∉ p.data) :
    queryParam ("/login?redirect=" ++ p) "redirect" = some p := by
  unfold queryParam
  rw [String.data_append]
  have h1 : (("/login?redirect=".data ++ p.data).dropWhile (fun c => c ≠ '?')).drop 1
      = "redirect=".data ++ p.data := rfl
  have h2 : '&' ∉ "redirect=".data ++ p.data := by
    intro hm
    rcases List.mem_append.mp hm with hm | hm
    · exact absurd hm (by decide)
    · exact h hm
  rw [h1, splitChars_whole '&' _ h2]
  have h3 : ("redirect=".data ++ p.data).takeWhile (fun c => c ≠ '=') = "redirect".data := rfl
  have h4 : (("redirect=".data ++ p.data).dropWhile (fun c => c ≠ '=')).drop 1 = p.data := rfl
  simp only [List.map_cons, List.map_nil, h3, h4]
  rfl

/-- The `redirect` parameter of the target of `loginHandler` after a code 6
is `/login`, whatever the message that follows. -/
theorem queryParam_redirect_login (msg : String) :
    queryParam ("/login?redirect=" ++ "/login" ++ "&error=" ++ msg) "redirect"
      = some "/login" := by
  unfold queryParam
  simp only [String.data_append]
  have h1 : (("/login?redirect=".data ++ "/login".data ++ "&error=".data ++ msg.data).dropWhile
      (fun c => c ≠ '?')).drop 1
      = "redirect=/login".data ++ '&' :: ("error=".data ++ msg.data) := rfl
  rw [h1, splitChars_cut '&' _ _ (by decide)]
  rfl

theorem urlView_login (q : String) : urlView ("/login?" ++ q) = "/login" := by
  unfold urlView
  rw [String.data_append]
  rfl

theorem redirectsTo_login {σ : Type} (st : State σ) (q : String)
    (h : redirectsTo st ("/login?" ++ q)) : redirectsToLogin st :=
  ⟨h.1, ⟨_, h.2.1, urlView_login q⟩, h.2.2⟩

theorem redirectsTo_param {σ : Type} (st : State σ) (url : String)
    (h : redirectsTo st url) : redirectParam st = queryParam url "redirect" := by
  unfold redirectParam
  rw [h.2.1]
  rfl

/-- C1, as the code behaves. In `driveHandler` (the info, stat and listdir
exchanges) a backend response with code 6 makes the response the redirect 302
to the login view, and for a request path that reads back unchanged as a
query value (`querySafe`) the `redirect` parameter of the target is that
path; in `loginHandler` it makes the response the redirect 302 to the login
view whose `redirect` parameter is the path of the request, `/login`; in
`logoutHandler`, for a request with a well-formed session, it makes the
response the redirect 302 to the login view with no `redirect` parameter. In
none of the three does the handler call `http.Error`. -/
theorem code6_redirects {σ : Type} (env : Env σ) (r : Request) (s : σ) :
    (answeredCode6 (driveHandler env r s).log →
      redirectsToLogin (driveHandler env r s) ∧
      (querySafe r.Path = true → redirectParam (driveHandler env r s) = some r.Path)) ∧
    (answeredCode6 (loginHandler env r s).log →
      redirectsToLogin (loginHandler env r s) ∧
      redirectParam (loginHandler env r s) = some r.Path) ∧
    ((getAuth env r).2.2 = none → (env.MarshalBinary (getAuth env r).2.1).2 = none →
      answeredCode6 (logoutHandler env r s).log →
      redirectsToLogin (logoutHandler env r s) ∧
      redirectParam (logoutHandler env r s) = none) := by
  refine ⟨?_, ?_, ?_⟩
  · intro h
    rcases driveHandler_exits env r s with hno | hred
    · obtain ⟨e, he, h6⟩ := h
      rw [hno e he] at h6
      exact absurd h6 (by decide)
    · refine ⟨redirectsTo_login _ ("redirect=" ++ r.Path) ?_, ?_⟩
      · have hq : "/login?" ++ ("redirect=" ++ r.Path) = "/login?redirect=" ++ r.Path := by
          rw [← String.append_assoc]; rfl
        rw [hq]; exact hred
      · intro hsafe
        rw [redirectsTo_param _ _ hred]
        exact queryParam_redirect r.Path (querySafe_no_ampersand r.Path hsafe)
  · intro h
    rcases loginHandler_exits env r s with hno | hred
    · obtain ⟨e, he, h6⟩ := h
      rw [hno e he] at h6
      exact absurd h6 (by decide)
    · obtain ⟨_, resp, _, hp, hred⟩ := hred
      refine ⟨redirectsTo_login _ ("redirect=" ++ r.Path ++ "&error=" ++ resp.String_) ?_, ?_⟩
      · have hq : "/login?" ++ ("redirect=" ++ r.Path ++ "&error=" ++ resp.String_)
            = "/login?redirect=" ++ r.Path ++ "&error=" ++ resp.String_ := by
          rw [← String.append_assoc, ← String.append_assoc, ← String.append_assoc]; rfl
        rw [hq]; exact hred
      · rw [redirectsTo_param _ _ hred, hp]
        exact queryParam_redirect_login resp.String_
  · intro ha hm h
    rcases logoutHandler_exits env r s ha hm with hno | hred
    · obtain ⟨e, he, h6⟩ := h
      rw [hno e he] at h6
      exact absurd h6 (by decide)
    · refine ⟨redirectsTo_login _ "error=Logged+out+successfully." hred, ?_⟩
      rw [redirectsTo_param _ _ hred]
      decide

/-- C1 as stated fails at the logout exchange: for `GET /logout` with a
well-formed session and a backend that answers code 6, the response is a
redirect to the login view, but its target has no `redirect` parameter, so
the parameter is not the path `/logout` of the request. -/
theorem logout_code6_has_no_redirect_parameter :
    answeredCode6 (logoutHandler scriptEnv (request "GET" "/logout" sessionCookies)
      [Reply.response 6 "invalid session" []]).log ∧
    (logoutHandler scriptEnv (request "GET" "/logout" sessionCookies)
      [Reply.response 6 "invalid session" []]).w.status = 302 ∧
    (logoutHandler scriptEnv (request "GET" "/logout" sessionCookies)
      [Reply.response 6 "invalid session" []]).w.sentHeader.location
        = some "/login?error=Logged+out+successfully." ∧
    queryParam "/login?error=Logged+out+successfully." "redirect" = none ∧
    queryParam "/login?error=Logged+out+successfully." "redirect"
      ≠ some (request "GET" "/logout" sessionCookies).Path := by
  refine ⟨?_, ?_, ?_, ?_, ?_⟩
  · unfold answeredCode6; decide
  all_goals decide

/-- C1 at `GET /drive/docs/a.txt` with a session the backend rejects at the
stat exchange: the response is the redirect to the login view and its
`redirect` parameter is the path of the request. -/
theorem code6_redirects_witness :
    redirectsToLogin (driveHandler scriptEnv (request "GET" "/drive/docs/a.txt" sessionCookies)
      [Reply.response 6 "invalid session" []]) ∧
    redirectParam (driveHandler scriptEnv (request "GET" "/drive/docs/a.txt" sessionCookies)
      [Reply.response 6 "invalid session" []]) = some "/drive/docs/a.txt" :=
  ⟨((code6_redirects scriptEnv (request "GET" "/drive/docs/a.txt" sessionCookies)
      [Reply.response 6 "invalid session" []]).1 (by unfold answeredCode6; decide)).1,
    ((code6_redirects scriptEnv (request "GET" "/drive/docs/a.txt" sessionCookies)
      [Reply.response 6 "invalid session" []]).1 (by unfold answeredCode6; decide)).2
      (by decide)⟩

/-- A request path that holds `&` is outside `querySafe`: the handler joins
the path to the target unescaped, and the `redirect` parameter read back
from the target is the path cut at the `&`. -/
theorem code6_redirect_of_path_with_ampersand :
    querySafe (request "GET" "/drive/docs/R&D/a.txt" sessionCookies).Path = false ∧
    (driveHandler scriptEnv (request "GET" "/drive/docs/R&D/a.txt" sessionCookies)
      [Reply.response 6 "invalid session" []]).w.sentHeader.location
        = some "/login?redirect=/drive/docs/R&D/a.txt" ∧
    redirectParam (driveHandler scriptEnv (request "GET" "/drive/docs/R&D/a.txt" sessionCookies)
      [Reply.response 6 "invalid session" []]) = some "/drive/docs/R" := by
  decide
/-! ## A transfer inside a run of `driveHandler` -/

section WholeTransfer
variable {σ : Type}

/-- A run of `driveHandler` that makes a call of the streaming exchange is:
the `stat` exchange `e0`, then a transfer whose opening fails, or in which
the relay of a frame fails, or whose loops run to their end, one group of
`NumChunks` frames per declared path, followed by one of the five endings.
The writer starts fresh. -/
theorem driveHandler_transfer (env : Env σ) (r : Request) (s : σ) :
    (∀ e ∈ (driveHandler env r s).log, e.isStream = false) ∨
    ∃ e0 req, e0.isStream = false ∧ e0.isFailure = false ∧ e0.isFrame = false ∧
      ((∃ err evs, SetupFailure req err evs ∧
        (driveHandler env r s).log
          = [e0] ++ evs ++ [Event.Error ("connection error: " ++ err) 500] ∧
        (driveHandler env r s).w
          = ResponseWriter.new.Error ("connection error: " ++ err) 500) ∨
      (∃ infos fs tail err handed, (∀ f ∈ fs, Frame.fromBackend env f) ∧
        FailedFrame env err tail handed ∧
        (driveHandler env r s).log
          = [e0] ++ transferSetup req infos ++ fs.flatMap Frame.events ++ tail ++
            [Event.Error ("connection error: " ++ err) 500] ∧
        (driveHandler env r s).w
          = (writeFrames ResponseWriter.new (fs ++ handed.toList)).Error
              ("connection error: " ++ err) 500) ∨
      (∃ infos fss post,
        List.Forall₂ (fun (ci : ChunkInfo) (fs : List Frame) => fs.length = ci.NumChunks.toNat)
          infos fss ∧
        (∀ f ∈ fss.flatten, Frame.fromBackend env f) ∧ Ending r post ∧
        (driveHandler env r s).log
          = [e0] ++ transferSetup req infos ++ fss.flatten.flatMap Frame.events ++ post ∧
        (driveHandler env r s).w
          = post.foldl (Event.apply r.Method) (writeFrames ResponseWriter.new fss.flatten))) := by
  rcases driveHandler_branches env r s with h | ⟨username, bytes, driveName, path, resp, s1, _, h⟩
  · exact Or.inl h
  · right
    rw [h]
    exact ⟨Event.MakeNonChunkRequest (statRequest username bytes driveName path) (.ok resp),
      readfilesRequest username bytes driveName path, rfl, rfl, rfl,
      file_spec env r _ username bytes driveName path⟩

theorem getLast?_append_two (l : List Event) (a b : Event) :
    (l ++ [a, b]).getLast? = some b := by
  have : l ++ [a, b] = (l ++ [a]) ++ [b] := by simp
  rw [this, List.getLast?_concat]


theorem events_isFrame (fs : List Frame) : ∀ e ∈ fs.flatMap Frame.events, e.isFrame = true := by
  intro e he
  obtain ⟨f, _, hf⟩ := List.mem_flatMap.mp he
  simp only [Frame.events, List.mem_cons, List.mem_singleton, List.mem_nil_iff, or_false] at hf
  rcases hf with rfl | rfl | rfl <;> rfl

theorem events_eq_nil (fs : List Frame) (h : ∀ e ∈ fs.flatMap Frame.events, e.isFrame = false) :
    fs = [] := by
  cases fs with
  | nil => rfl
  | cons f fs =>
    have := h (Event.Write f.payload none) (by simp [Frame.events])
    exact absurd this (by simp [Event.isFrame])

end WholeTransfer

section RelayClaim
variable {σ : Type}

theorem events_received (fs : List Frame) :
    (fs.flatMap Frame.events).flatMap Event.received = fs.flatMap (fun f => f.payload) := by
  induction fs with
  | nil => rfl
  | cons f fs ih =>
    simp only [List.flatMap_cons, List.flatMap_append, ih]
    simp [Frame.events, Event.received]

theorem events_written (fs : List Frame) :
    (fs.flatMap Frame.events).flatMap Event.written = fs.flatMap (fun f => f.payload) := by
  induction fs with
  | nil => rfl
  | cons f fs ih =>
    simp only [List.flatMap_cons, List.flatMap_append, ih]
    simp [Frame.events, Event.written]

theorem events_note (method : String) (fs : List Frame) :
    (fs.flatMap Frame.events).flatMap (Event.note method) = [] := by
  induction fs with
  | nil => rfl
  | cons f fs ih =>
    simp only [List.flatMap_cons, List.flatMap_append, ih]
    simp [Frame.events, Event.note]

theorem events_receivedSize (fs : List Frame) :
    ((fs.flatMap Frame.events).map Event.receivedSize).sum = (fs.map (fun f => f.size)).sum := by
  induction fs with
  | nil => rfl
  | cons f fs ih =>
    simp only [List.flatMap_cons, List.map_append, List.sum_append, ih, List.map_cons,
      List.sum_cons]
    simp [Frame.events, Event.receivedSize]

theorem events_filter (fs : List Frame) :
    (fs.flatMap Frame.events).filter Event.isFrame = fs.flatMap Frame.events :=
  List.filter_eq_self.mpr (events_isFrame fs)

theorem payload_length (env : Env σ) (fs : List Frame)
    (hfill : ∀ size s buf, (env.GetChunk size s).1 = .ok buf → buf.length = size)
    (hfs : ∀ f ∈ fs, Frame.fromBackend env f) :
    (fs.flatMap (fun f => f.payload)).length = (fs.map (fun f => f.size)).sum := by
  induction fs with
  | nil => rfl
  | cons f fs ih =>
    obtain ⟨s, hs⟩ := hfs f (List.mem_cons_self _ _)
    simp only [List.flatMap_cons, List.length_append, List.map_cons, List.sum_cons,
      ih (fun g hg => hfs g (List.mem_cons_of_mem _ hg)), hfill _ _ _ hs]

theorem received_of_not_stream (e : Event) (h : e.isStream = false) : e.received = [] := by
  cases e <;> simp_all [Event.isStream, Event.received]

theorem receivedSize_of_not_stream (e : Event) (h : e.isStream = false) :
    e.receivedSize = 0 := by
  cases e <;> simp_all [Event.isStream, Event.receivedSize]

theorem written_of_not_stream (e : Event) (h : e.isStream = false) : e.written = [] := by
  cases e <;> simp_all [Event.isStream, Event.written]

theorem note_of_not_failure (method : String) (e : Event) (h : e.isFailure = false) :
    Event.note method e = [] := by
  cases e <;> simp_all [Event.isFailure, Event.note]

/-- The observers on the stat exchange and the opening of a transfer. -/
theorem setup_observers (method : String) (e0 : Event) (req : BackendRequest)
    (infos : List ChunkInfo) (hs0 : e0.isStream = false) (hf0 : e0.isFailure = false)
    (hfr0 : e0.isFrame = false) :
    ([e0] ++ transferSetup req infos).flatMap Event.received = [] ∧
    ([e0] ++ transferSetup req infos).flatMap Event.written = [] ∧
    ([e0] ++ transferSetup req infos).flatMap (Event.note method) = [] ∧
    (([e0] ++ transferSetup req infos).map Event.receivedSize).sum = 0 ∧
    ([e0] ++ transferSetup req infos).filter Event.isFrame = [] := by
  have h1 := received_of_not_stream e0 hs0
  have h2 := written_of_not_stream e0 hs0
  have h3 := note_of_not_failure method e0 hf0
  have h4 := receivedSize_of_not_stream e0 hs0
  refine ⟨?_, ?_, ?_, ?_, ?_⟩
  · simp only [List.singleton_append, List.flatMap_cons, h1]
    simp [transferSetup, Event.received]
  · simp only [List.singleton_append, List.flatMap_cons, h2]
    simp [transferSetup, Event.written]
  · simp only [List.singleton_append, List.flatMap_cons, h3]
    simp [transferSetup, Event.note]
  · simp only [List.singleton_append, List.map_cons, List.sum_cons, h4]
    simp [transferSetup, Event.receivedSize]
  · simp only [List.singleton_append]
    rw [List.filter_cons_of_neg (by simp [hfr0])]
    simp [transferSetup, Event.isFrame]

/-- The observers on the calls of a failed frame. -/
theorem failed_observers (env : Env σ) (method err : String) (tail : List Event)
    (handed : Option Frame) (hfail : FailedFrame env err tail handed) :
    tail.flatMap Event.received = handed.toList.flatMap (fun f => f.payload) ∧
    tail.flatMap Event.written = handed.toList.flatMap (fun f => f.payload) ∧
    tail.flatMap (Event.note method) = [] ∧
    (tail.map Event.receivedSize).sum = (handed.toList.map (fun f => f.size)).sum ∧
    (∀ f ∈ handed.toList, Frame.fromBackend env f) ∧
    (∀ x, Event.GetFooter x ∉ tail) := by
  cases hfail with
  | info => simp [Event.received, Event.written, Event.note, Event.receivedSize]
  | chunk name size => simp [Event.received, Event.written, Event.note, Event.receivedSize]
  | write f hf => simp [Event.received, Event.written, Event.note, Event.receivedSize, hf]

/-- The observers on the ending of a transfer. -/
theorem ending_observers (r : Request) (post : List Event) (w : ResponseWriter)
    (hct : w.header.contentType = none) (hend : Ending r post) :
    post.flatMap Event.received = [] ∧ post.flatMap Event.written = [] ∧
    (post.map Event.receivedSize).sum = 0 ∧ post.filter Event.isFrame = [] ∧
    (post.foldl (Event.apply r.Method) w).body = w.body ++ post.flatMap (Event.note r.Method) ∧
    ((∀ e ∈ post, e.isFailure = false) → post.flatMap (Event.note r.Method) = []) := by
  cases hend with
  | footer err =>
    simp [Event.received, Event.written, Event.note, Event.receivedSize, Event.isFrame,
      Event.apply, Error_body, Event.isFailure]
  | response err =>
    simp [Event.received, Event.written, Event.note, Event.receivedSize, Event.isFrame,
      Event.apply, Error_body, Event.isFailure]
  | reauth resp h6 =>
    simp [Event.received, Event.written, Event.note, Event.receivedSize, Event.isFrame,
      Event.apply, Redirect_body, Event.isFailure, hct]
  | failed resp h0 h6 =>
    simp [Event.received, Event.written, Event.note, Event.receivedSize, Event.isFrame,
      Event.apply, Error_body, Event.isFailure]
  | done resp h0 =>
    simp [Event.received, Event.written, Event.note, Event.receivedSize, Event.isFrame,
      Event.apply, Event.isFailure]

/-- C3, as the code behaves. In every run of `driveHandler` that received
the transfer header `infos`: (1) if the relay loops ran to their end (the
footer was asked for), the frame calls of the run are, for each declared path
in the declared order, exactly `NumChunks` frames, each one `GetChunkInfo`,
one `GetChunk` and one `Write`; (2) the bytes the handler wrote with
`w.Write` are the payloads received, in arrival order; (3) the sink holds
these payloads followed by the text of the terminal call (the message of
`http.Error`, the note of `http.Redirect`), if there is one; (4) when the
transfer is successful the sink holds exactly the payloads; (5) when the
backend fills every buffer to the size asked, the payloads have as many
bytes as the sum of the sizes of the frames received. -/
theorem transfer_relay (env : Env σ) (r : Request) (s : σ) (infos : List ChunkInfo)
    (h : Event.GetChunkRequestInfo (.ok infos) ∈ (driveHandler env r s).log) :
    ((∃ err, Event.GetFooter err ∈ (driveHandler env r s).log) →
      ∃ fss : List (List Frame),
        List.Forall₂ (fun (ci : ChunkInfo) (fs : List Frame) => fs.length = ci.NumChunks.toNat)
          infos fss ∧
        (driveHandler env r s).log.filter Event.isFrame = fss.flatten.flatMap Frame.events) ∧
    (driveHandler env r s).log.flatMap Event.written
      = (driveHandler env r s).log.flatMap Event.received ∧
    (driveHandler env r s).w.body
      = (driveHandler env r s).log.flatMap Event.received ++
        (driveHandler env r s).log.flatMap (Event.note r.Method) ∧
    (transferSucceeded (driveHandler env r s).log →
      (driveHandler env r s).w.body = (driveHandler env r s).log.flatMap Event.received) ∧
    ((∀ size s buf, (env.GetChunk size s).1 = .ok buf → buf.length = size) →
      ((driveHandler env r s).log.flatMap Event.received).length
        = ((driveHandler env r s).log.map Event.receivedSize).sum) := by
  rcases driveHandler_transfer env r s with hno | ⟨e0, req, hs0, hf0, hfr0, hcase⟩
  · exact absurd (hno _ h) (by simp [Event.isStream])
  · rcases hcase with ⟨err, evs, hfail, hlog, hw⟩ |
      ⟨infos1, fs, tail, err, handed, hfrom, hfail, hlog, hw⟩ |
      ⟨infos1, fss, post, hall, hfrom, hend, hlog, hw⟩
    · exfalso
      rw [hlog] at h
      simp only [List.mem_append, List.mem_singleton, reduceCtorEq, or_false] at h
      rcases h with h | h
      · rw [← h] at hs0; exact absurd hs0 (by simp [Event.isStream])
      · cases hfail <;> simp at h
    · obtain ⟨hs1, hs2, hs3, hs4, hs5⟩ := setup_observers r.Method e0 req infos1 hs0 hf0 hfr0
      obtain ⟨ht1, ht2, ht3, ht4, ht5, ht6⟩ := failed_observers env r.Method err tail handed hfail
      have hfoot : ∀ x, Event.GetFooter x ∉ (driveHandler env r s).log := by
        intro x hx
        rw [hlog] at hx
        simp only [List.mem_append, List.mem_singleton, reduceCtorEq, or_false] at hx
        rcases hx with ((hx | hx) | hx) | hx
        · rw [← hx] at hs0; exact absurd hs0 (by simp [Event.isStream])
        · simp [transferSetup] at hx
        · exact absurd (events_isFrame fs _ hx) (by simp [Event.isFrame])
        · exact ht6 x hx
      refine ⟨fun ⟨x, hx⟩ => absurd hx (hfoot x), ?_, ?_, ?_, ?_⟩
      · rw [hlog]
        simp only [List.flatMap_append, hs1, hs2, ht1, ht2, events_written, events_received]
        simp [Event.written, Event.received]
      · rw [hlog, hw]
        simp only [List.flatMap_append, hs1, hs3, ht1, ht3, events_note, events_received,
          Error_body, writeFrames_body]
        simp [Event.received, Event.note]
      · intro hsucc
        have := hsucc.2 (Event.Error ("connection error: " ++ err) 500) (by rw [hlog]; simp)
        exact absurd this (by simp [Event.isFailure])
      · intro hfill
        rw [hlog]
        simp only [List.flatMap_append, List.map_append, List.sum_append, List.length_append,
          hs1, hs4, ht1, ht4, events_received, events_receivedSize,
          payload_length env fs hfill hfrom, payload_length env handed.toList hfill ht5,
          List.map_cons, List.sum_cons, List.map_nil, receivedSize_of_not_stream e0 hs0]
        simp [Event.received, Event.receivedSize, transferSetup]
    · obtain ⟨hs1, hs2, hs3, hs4, hs5⟩ := setup_observers r.Method e0 req infos1 hs0 hf0 hfr0
      obtain ⟨hp1, hp2, hp3, hp4, hp5, hp6⟩ := ending_observers r post
        (writeFrames ResponseWriter.new fss.flatten) (by rw [writeFrames_header]; rfl) hend
      have hinfos : infos1 = infos := by
        rw [hlog] at h
        simp only [List.mem_append, List.mem_singleton] at h
        rcases h with ((h | h) | h) | h
        · rw [← h] at hs0; exact absurd hs0 (by simp [Event.isStream])
        · simp [transferSetup] at h
          exact h.symm
        · exact absurd (events_isFrame _ _ h) (by simp [Event.isFrame])
        · cases hend <;> simp at h
      subst hinfos
      refine ⟨fun _ => ⟨fss, hall, ?_⟩, ?_, ?_, ?_, ?_⟩
      · rw [hlog]
        simp only [List.filter_append, hs5, hp4, events_filter]
        simp
      · rw [hlog]
        simp only [List.flatMap_append, hs1, hs2, hp1, hp2, events_written, events_received]
      · rw [hlog, hw, hp5]
        simp only [List.flatMap_append, hs1, hs3, hp1, events_note, events_received,
          writeFrames_body]
        simp
      · intro hsucc
        rw [hlog, hw, hp5]
        have hnote : post.flatMap (Event.note r.Method) = [] := by
          apply hp6
          intro e he
          apply hsucc.2
          rw [hlog]
          exact List.mem_append_right _ he
        simp only [List.flatMap_append, hs1, hp1, events_received, writeFrames_body, hnote]
        simp
      · intro hfill
        rw [hlog]
        simp only [List.flatMap_append, List.map_append, List.sum_append, List.length_append,
          hs1, hs4, hp1, hp3, events_received, events_receivedSize,
          payload_length env fss.flatten hfill hfrom, List.map_cons, List.sum_cons,
          List.map_nil, receivedSize_of_not_stream e0 hs0]
        simp [Event.receivedSize, transferSetup]

end RelayClaim

/-- C3 as stated fails after a failure: for a file declared with two chunks
whose second frame times out, the sink holds the payload of the first frame
followed by the text of the error response, 29 bytes for a frame of 3. -/
theorem transfer_sink_holds_error_text :
    ((driveHandler scriptEnv (request "GET" "/drive/docs/a.txt" sessionCookies)
      [statFile, Reply.ok, Reply.ok, Reply.ok, Reply.infos [⟨"a.txt", 2⟩],
        Reply.chunkInfo "a.txt" 3, Reply.chunk [1, 2, 3], Reply.err "timeout"]).log.flatMap
      Event.received = [1, 2, 3]) ∧
    ((driveHandler scriptEnv (request "GET" "/drive/docs/a.txt" sessionCookies)
      [statFile, Reply.ok, Reply.ok, Reply.ok, Reply.infos [⟨"a.txt", 2⟩],
        Reply.chunkInfo "a.txt" 3, Reply.chunk [1, 2, 3], Reply.err "timeout"]).log.map
      Event.receivedSize).sum = 3 ∧
    (driveHandler scriptEnv (request "GET" "/drive/docs/a.txt" sessionCookies)
      [statFile, Reply.ok, Reply.ok, Reply.ok, Reply.infos [⟨"a.txt", 2⟩],
        Reply.chunkInfo "a.txt" 3, Reply.chunk [1, 2, 3], Reply.err "timeout"]).w.body
      = [1, 2, 3] ++ utf8 "connection error: timeout\n" ∧
    (driveHandler scriptEnv (request "GET" "/drive/docs/a.txt" sessionCookies)
      [statFile, Reply.ok, Reply.ok, Reply.ok, Reply.infos [⟨"a.txt", 2⟩],
        Reply.chunkInfo "a.txt" 3, Reply.chunk [1, 2, 3], Reply.err "timeout"]).w.body.length
      = 29 := by
  decide

/-- The scripted backend fills every buffer to the size asked. -/
theorem scriptEnv_fills (size : Nat) (s : List Reply) (buf : List Nat)
    (h : (scriptEnv.GetChunk size s).1 = .ok buf) : buf.length = size := by
  simp only [scriptEnv] at h
  split at h
  · rename_i b rest
    simp only [Except.ok.injEq] at h
    subst h
    simp only [List.length_append, List.length_take, List.length_replicate]
    omega
  · exact absurd h (by simp)
  · exact absurd h (by simp)

/-- C3 at a successful transfer of two files, of two chunks and of none: the
payloads received, the sink, and the sizes. -/
theorem transfer_relay_witness :
    (driveHandler scriptEnv (request "GET" "/drive/docs/a.txt" sessionCookies)
      [statFile, Reply.ok, Reply.ok, Reply.ok, Reply.infos [⟨"a.txt", 2⟩, ⟨"b.txt", 0⟩],
        Reply.chunkInfo "a.txt" 3, Reply.chunk [1, 2, 3], Reply.chunkInfo "a.txt" 1,
        Reply.chunk [4], Reply.ok, Reply.response 0 "" []]).log.flatMap Event.received
      = [1, 2, 3, 4] ∧
    (driveHandler scriptEnv (request "GET" "/drive/docs/a.txt" sessionCookies)
      [statFile, Reply.ok, Reply.ok, Reply.ok, Reply.infos [⟨"a.txt", 2⟩, ⟨"b.txt", 0⟩],
        Reply.chunkInfo "a.txt" 3, Reply.chunk [1, 2, 3], Reply.chunkInfo "a.txt" 1,
        Reply.chunk [4], Reply.ok, Reply.response 0 "" []]).w.body
      = (driveHandler scriptEnv (request "GET" "/drive/docs/a.txt" sessionCookies)
      [statFile, Reply.ok, Reply.ok, Reply.ok, Reply.infos [⟨"a.txt", 2⟩, ⟨"b.txt", 0⟩],
        Reply.chunkInfo "a.txt" 3, Reply.chunk [1, 2, 3], Reply.chunkInfo "a.txt" 1,
        Reply.chunk [4], Reply.ok, Reply.response 0 "" []]).log.flatMap Event.received ∧
    ((driveHandler scriptEnv (request "GET" "/drive/docs/a.txt" sessionCookies)
      [statFile, Reply.ok, Reply.ok, Reply.ok, Reply.infos [⟨"a.txt", 2⟩, ⟨"b.txt", 0⟩],
        Reply.chunkInfo "a.txt" 3, Reply.chunk [1, 2, 3], Reply.chunkInfo "a.txt" 1,
        Reply.chunk [4], Reply.ok, Reply.response 0 "" []]).log.flatMap Event.received).length
      = ((driveHandler scriptEnv (request "GET" "/drive/docs/a.txt" sessionCookies)
      [statFile, Reply.ok, Reply.ok, Reply.ok, Reply.infos [⟨"a.txt", 2⟩, ⟨"b.txt", 0⟩],
        Reply.chunkInfo "a.txt" 3, Reply.chunk [1, 2, 3], Reply.chunkInfo "a.txt" 1,
        Reply.chunk [4], Reply.ok, Reply.response 0 "" []]).log.map Event.receivedSize).sum :=
  ⟨by decide,
    (transfer_relay scriptEnv (request "GET" "/drive/docs/a.txt" sessionCookies)
      [statFile, Reply.ok, Reply.ok, Reply.ok, Reply.infos [⟨"a.txt", 2⟩, ⟨"b.txt", 0⟩],
        Reply.chunkInfo "a.txt" 3, Reply.chunk [1, 2, 3], Reply.chunkInfo "a.txt" 1,
        Reply.chunk [4], Reply.ok, Reply.response 0 "" []] [⟨"a.txt", 2⟩, ⟨"b.txt", 0⟩]
      (List.getElem?_mem (n := 4) rfl)).2.2.2.1
      ⟨⟨_, _, List.getElem?_mem (n := 2) rfl⟩, by decide⟩,
    (transfer_relay scriptEnv (request "GET" "/drive/docs/a.txt" sessionCookies)
      [statFile, Reply.ok, Reply.ok, Reply.ok, Reply.infos [⟨"a.txt", 2⟩, ⟨"b.txt", 0⟩],
        Reply.chunkInfo "a.txt" 3, Reply.chunk [1, 2, 3], Reply.chunkInfo "a.txt" 1,
        Reply.chunk [4], Reply.ok, Reply.response 0 "" []] [⟨"a.txt", 2⟩, ⟨"b.txt", 0⟩]
      (List.getElem?_mem (n := 4) rfl)).2.2.2.2 scriptEnv_fills⟩

/-! ## C4: the footer -/

section Footer
variable {σ : Type}

theorem writeFrames_sent (w : ResponseWriter) (fs : List Frame) :
    (writeFrames w fs).sent = if fs = [] then w.sent else some (w.sent.getD (200, w.header)) := by
  induction fs generalizing w with
  | nil => rfl
  | cons f fs ih =>
    rw [writeFrames_cons, ih]
    simp only [Write_sent, Write_header, Option.getD_some, reduceCtorEq, if_false]
    split <;> rfl

/-- C4, as the code behaves: in every run of `driveHandler`, if the footer
step of a transfer reports an error (the header and all declared frames were
relayed before), the handler ends with `http.Error` (500), never asks for the
final response whatever it would be, the transfer is not successful, and the
text of the error follows the payloads in the sink; the response has status
500 when no frame was written, and keeps the status 200 sent with the first
frame otherwise. A transfer is successful only if the run is: the stat
exchange, the opening with the header, for each declared path in order
exactly `NumChunks` frames, the footer without error, and a final response
with code 0, in that order. -/
theorem transfer_footer (env : Env σ) (r : Request) (s : σ) :
    (∀ err, Event.GetFooter (some err) ∈ (driveHandler env r s).log →
      (driveHandler env r s).log.getLast? = some (Event.Error "connection error: <nil>" 500) ∧
      (∀ res, Event.ReceiveResponse res ∉ (driveHandler env r s).log) ∧
      ¬ transferSucceeded (driveHandler env r s).log ∧
      (driveHandler env r s).w.body
        = (driveHandler env r s).log.flatMap Event.received ++
          utf8 ("connection error: <nil>" ++ "\n") ∧
      ((∀ e ∈ (driveHandler env r s).log, e.isFrame = false) →
        (driveHandler env r s).w.status = 500) ∧
      ((∃ e ∈ (driveHandler env r s).log, e.isFrame = true) →
        (driveHandler env r s).w.status = 200)) ∧
    (transferSucceeded (driveHandler env r s).log →
      ∃ e0 req infos fss resp,
        List.Forall₂ (fun (ci : ChunkInfo) (fs : List Frame) => fs.length = ci.NumChunks.toNat)
          infos fss ∧
        resp.Code = 0 ∧
        (driveHandler env r s).log
          = [e0] ++ transferSetup req infos ++ fss.flatten.flatMap Frame.events ++
            [Event.GetFooter none, Event.ReceiveResponse (.ok resp)]) := by
  rcases driveHandler_transfer env r s with hno | ⟨e0, req, hs0, hf0, hfr0, hcase⟩
  · constructor
    · intro err h
      exact absurd (hno _ h) (by simp [Event.isStream])
    · intro h
      obtain ⟨⟨req, err, hmem⟩, _⟩ := h
      exact absurd (hno _ hmem) (by simp [Event.isStream])
  · have hpre : ∀ infos (fs : List Frame),
        ∀ e ∈ [e0] ++ transferSetup req infos ++ fs.flatMap Frame.events,
          (∀ err, e ≠ Event.GetFooter err) ∧ (∀ res, e ≠ Event.ReceiveResponse res) := by
      intro infos fs e he
      simp only [List.mem_append, List.mem_singleton] at he
      rcases he with (he | he) | he
      · subst he
        constructor <;> intro x hx <;> rw [hx] at hs0 <;> simp [Event.isStream] at hs0
      · simp [transferSetup] at he
        rcases he with rfl | rfl | rfl | rfl <;> simp
      · have := events_isFrame fs e he
        constructor <;> intro x hx <;> rw [hx] at this <;> simp [Event.isFrame] at this
    rcases hcase with ⟨err, evs, hfail, hlog, hw⟩ |
      ⟨infos, fs, tail, err, handed, _, hfail, hlog, hw⟩ |
      ⟨infos, fss, post, hall, _, hend, hlog, hw⟩
    · constructor
      · intro err1 h
        exfalso
        rw [hlog] at h
        simp only [List.mem_append, List.mem_singleton, reduceCtorEq, or_false] at h
        rcases h with h | h
        · rw [← h] at hs0; exact absurd hs0 (by simp [Event.isStream])
        · cases hfail <;> simp at h
      · intro h
        exfalso
        have := h.2 (Event.Error ("connection error: " ++ err) 500) (by rw [hlog]; simp)
        exact absurd this (by simp [Event.isFailure])
    · constructor
      · intro err1 h
        exfalso
        rw [hlog] at h
        rcases List.mem_append.mp h with h | h
        · rcases List.mem_append.mp h with h | h
          · exact (hpre infos fs _ h).1 _ rfl
          · cases hfail <;> simp at h
        · simp at h
      · intro h
        exfalso
        have := h.2 (Event.Error ("connection error: " ++ err) 500) (by rw [hlog]; simp)
        exact absurd this (by simp [Event.isFailure])
    · constructor
      · intro err1 h
        have hpost : Event.GetFooter (some err1) ∈ post := by
          rw [hlog] at h
          rcases List.mem_append.mp h with h | h
          · exact absurd rfl ((hpre infos _ _ h).1 _)
          · exact h
        cases hend with
        | footer err2 =>
          refine ⟨?_, ?_, ?_, ?_, ?_, ?_⟩
          · rw [hlog]; exact getLast?_append_two _ _ _
          · intro res hmem
            rw [hlog] at hmem
            rcases List.mem_append.mp hmem with hmem | hmem
            · exact (hpre infos _ _ hmem).2 _ rfl
            · simp at hmem
          · intro hsucc
            have := hsucc.2 (Event.Error "connection error: <nil>" 500) (by rw [hlog]; simp)
            exact absurd this (by simp [Event.isFailure])
          · obtain ⟨hs1, _, _, _, _⟩ := setup_observers r.Method e0 req infos hs0 hf0 hfr0
            rw [hlog, hw]
            simp only [List.foldl_cons, List.foldl_nil, Event.apply, Error_body,
              writeFrames_body, List.flatMap_append, hs1, events_received]
            simp [Event.received]
          · intro hnf
            have hnil : fss.flatten = [] := by
              apply events_eq_nil
              intro e he
              apply hnf
              rw [hlog]
              simp only [List.mem_append]
              exact Or.inl (Or.inr he)
            rw [hw, hnil]
            simp only [List.foldl_cons, List.foldl_nil, Event.apply, writeFrames]
            exact Error_status _ _ _ rfl
          · intro hfr
            obtain ⟨e, he, hframe⟩ := hfr
            have hne : fss.flatten ≠ [] := by
              intro hnil
              rw [hlog, hnil] at he
              simp only [List.flatMap_nil, List.append_nil, List.mem_append, List.mem_singleton,
                List.mem_cons, List.mem_nil_iff, or_false] at he
              rcases he with (he | he) | he | he
              · rw [he, hfr0] at hframe; exact absurd hframe (by decide)
              · simp [transferSetup] at he
                rcases he with rfl | rfl | rfl | rfl <;> simp [Event.isFrame] at hframe
              · rw [he] at hframe; simp [Event.isFrame] at hframe
              · rw [he] at hframe; simp [Event.isFrame] at hframe
            rw [hw]
            simp only [List.foldl_cons, List.foldl_nil, Event.apply]
            simp [ResponseWriter.status, Error_sent, writeFrames_sent, hne]
        | response err2 => simp at hpost
        | reauth resp h6 => simp at hpost
        | failed resp h0 h6 => simp at hpost
        | done resp h0 => simp at hpost
      · intro hsucc
        cases hend with
        | footer err2 =>
          have := hsucc.2 (Event.Error "connection error: <nil>" 500) (by rw [hlog]; simp)
          exact absurd this (by simp [Event.isFailure])
        | response err2 =>
          have := hsucc.2 (Event.Error ("connection error: " ++ err2) 500) (by rw [hlog]; simp)
          exact absurd this (by simp [Event.isFailure])
        | reauth resp h6 =>
          have := hsucc.2 (Event.Redirect ("/login?redirect=" ++ r.Path) 302)
            (by rw [hlog]; simp)
          exact absurd this (by simp [Event.isFailure])
        | failed resp h0 h6 =>
          have := hsucc.2 (Event.Error (failedText resp) 500) (by rw [hlog]; simp)
          exact absurd this (by simp [Event.isFailure])
        | done resp h0 => exact ⟨e0, req, infos, fss, resp, hall, h0, hlog⟩

end Footer

/-- C4 as stated fails for a file of one frame whose footer is missing: the
handler calls `http.Error`, but the response the browser receives is not an
error response: its status is the 200 sent with the frame, and its body is
the payload followed by the text of the error. -/
theorem transfer_footer_error_after_frame_is_status_200 :
    (driveHandler scriptEnv (request "GET" "/drive/docs/a.txt" sessionCookies)
      [statFile, Reply.ok, Reply.ok, Reply.ok, Reply.infos [⟨"a.txt", 1⟩],
        Reply.chunkInfo "a.txt" 3, Reply.chunk [1, 2, 3], Reply.err "timeout",
        Reply.response 0 "" []]).w.status = 200 ∧
    (driveHandler scriptEnv (request "GET" "/drive/docs/a.txt" sessionCookies)
      [statFile, Reply.ok, Reply.ok, Reply.ok, Reply.infos [⟨"a.txt", 1⟩],
        Reply.chunkInfo "a.txt" 3, Reply.chunk [1, 2, 3], Reply.err "timeout",
        Reply.response 0 "" []]).w.body
      = [1, 2, 3] ++ utf8 "connection error: <nil>\n" ∧
    (driveHandler scriptEnv (request "GET" "/drive/docs/a.txt" sessionCookies)
      [statFile, Reply.ok, Reply.ok, Reply.ok, Reply.infos [⟨"a.txt", 1⟩],
        Reply.chunkInfo "a.txt" 3, Reply.chunk [1, 2, 3], Reply.err "timeout",
        Reply.response 0 "" []]).w.status ≠ 500 := by
  decide

/-- C4 at a transfer of one frame whose footer is missing, where the handler
ends with the error although the script holds a final response with code 0
and the status stays 200, and at a transfer of one frame that succeeds. -/
theorem transfer_footer_witness :
    ((driveHandler scriptEnv (request "GET" "/drive/docs/a.txt" sessionCookies)
      [statFile, Reply.ok, Reply.ok, Reply.ok, Reply.infos [⟨"a.txt", 1⟩],
        Reply.chunkInfo "a.txt" 3, Reply.chunk [1, 2, 3], Reply.err "timeout",
        Reply.response 0 "" []]).log.getLast?
      = some (Event.Error "connection error: <nil>" 500) ∧
    (driveHandler scriptEnv (request "GET" "/drive/docs/a.txt" sessionCookies)
      [statFile, Reply.ok, Reply.ok, Reply.ok, Reply.infos [⟨"a.txt", 1⟩],
        Reply.chunkInfo "a.txt" 3, Reply.chunk [1, 2, 3], Reply.err "timeout",
        Reply.response 0 "" []]).w.status = 200) ∧
    ∃ e0 req infos fss resp,
      List.Forall₂ (fun (ci : ChunkInfo) (fs : List Frame) => fs.length = ci.NumChunks.toNat)
        infos fss ∧
      resp.Code = 0 ∧
      (driveHandler scriptEnv (request "GET" "/drive/docs/a.txt" sessionCookies)
      [statFile, Reply.ok, Reply.ok, Reply.ok, Reply.infos [⟨"a.txt", 1⟩],
        Reply.chunkInfo "a.txt" 3, Reply.chunk [1, 2, 3], Reply.ok,
        Reply.response 0 "" []]).log
        = [e0] ++ transferSetup req infos ++ fss.flatten.flatMap Frame.events ++
          [Event.GetFooter none, Event.ReceiveResponse (.ok resp)] :=
  ⟨⟨((transfer_footer scriptEnv (request "GET" "/drive/docs/a.txt" sessionCookies)
      [statFile, Reply.ok, Reply.ok, Reply.ok, Reply.infos [⟨"a.txt", 1⟩],
        Reply.chunkInfo "a.txt" 3, Reply.chunk [1, 2, 3], Reply.err "timeout",
        Reply.response 0 "" []]).1 "timeout" (List.getElem?_mem (n := 8) rfl)).1,
    ((transfer_footer scriptEnv (request "GET" "/drive/docs/a.txt" sessionCookies)
      [statFile, Reply.ok, Reply.ok, Reply.ok, Reply.infos [⟨"a.txt", 1⟩],
        Reply.chunkInfo "a.txt" 3, Reply.chunk [1, 2, 3], Reply.err "timeout",
        Reply.response 0 "" []]).1 "timeout" (List.getElem?_mem (n := 8) rfl)).2.2.2.2.2
      (by decide)⟩,
    (transfer_footer scriptEnv (request "GET" "/drive/docs/a.txt" sessionCookies)
      [statFile, Reply.ok, Reply.ok, Reply.ok, Reply.infos [⟨"a.txt", 1⟩],
        Reply.chunkInfo "a.txt" 3, Reply.chunk [1, 2, 3], Reply.ok,
        Reply.response 0 "" []]).2
      ⟨⟨_, _, List.getElem?_mem (n := 2) rfl⟩, by decide⟩⟩
/-! ## C10 in a run of `driveHandler` -/

section DirPage
variable {σ : Type}

theorem events_dirPage (fs : List Frame) : ∀ e ∈ fs.flatMap Frame.events, e.dirPage = none := by
  intro e he
  obtain ⟨f, _, hf⟩ := List.mem_flatMap.mp he
  simp only [Frame.events, List.mem_cons, List.mem_singleton, List.mem_nil_iff, or_false] at hf
  rcases hf with rfl | rfl | rfl <;> rfl

/-- The transfer of a file executes no template. -/
theorem file_dirPage (env : Env σ) (r : Request) (st : State σ) (username : String)
    (bytes : List Nat) (driveName : String) (path : List String)
    (h0 : ∀ e ∈ st.log, e.dirPage = none) :
    ∀ e ∈ (driveHandler.file env r st username bytes driveName path).log, e.dirPage = none := by
  rcases file_spec env r st username bytes driveName path with
    ⟨err, evs, hfail, hlog, _⟩ | ⟨infos, fs, tail, err, handed, _, hfail, hlog, _⟩ |
    ⟨infos, fss, post, _, _, hend, hlog, _⟩
  · rw [hlog]
    intro e he
    simp only [List.mem_append, List.mem_singleton] at he
    rcases he with (he | he) | he
    · exact h0 e he
    · cases hfail <;> simp at he <;> rcases he with rfl | rfl | rfl | rfl <;> rfl
    · rw [he]; rfl
  · rw [hlog]
    intro e he
    simp only [List.mem_append, List.mem_singleton] at he
    rcases he with (((he | he) | he) | he) | he
    · exact h0 e he
    · simp [transferSetup] at he
      rcases he with rfl | rfl | rfl | rfl <;> rfl
    · exact events_dirPage fs e he
    · cases hfail <;> simp at he <;> rcases he with rfl | rfl | rfl <;> rfl
    · rw [he]; rfl
  · rw [hlog]
    intro e he
    simp only [List.mem_append] at he
    rcases he with ((he | he) | he) | he
    · exact h0 e he
    · simp [transferSetup] at he
      rcases he with rfl | rfl | rfl | rfl <;> rfl
    · exact events_dirPage _ e he
    · cases hend <;> simp at he <;> rcases he with rfl | rfl | rfl <;> rfl

/-- The branch of the directory listing executes the directory template at
most once, on the page `directoryPage` builds for the escaped path. -/
theorem dir_dirPage (env : Env σ) (r : Request) (st : State σ) (username : String)
    (bytes : List Nat) (driveName : String) (path : List String)
    (h0 : ∀ e ∈ st.log, e.dirPage = none) :
    ∀ e ∈ (driveHandler.dir env r st username bytes driveName path).log, ∀ page,
      e.dirPage = some page →
      ∃ list, directoryPage env.toLower r.EscapedPath list = some page := by
  unfold driveHandler.dir
  simp only [State.MakeNonChunkRequest_fst]
  repeat' split
  all_goals
    intro e he page hpage
    simp only [State.Error_log, State.Redirect_log, State.panic_log, State.Execute_log,
      State.MakeNonChunkRequest_log, List.mem_append, List.mem_singleton] at he
    rcases he with (he | he) | he
    · rw [h0 e he] at hpage; exact absurd hpage (by simp)
    · rw [he] at hpage; exact absurd hpage (by simp [Event.dirPage])
    · rw [he] at hpage
      first
        | (simp only [Event.dirPage, Option.some.injEq] at hpage
           subst hpage
           exact ⟨_, by assumption⟩)
        | exact absurd hpage (by simp [Event.dirPage])

theorem info_dirPage (env : Env σ) (r : Request) (s : σ) (username : String)
    (bytes : List Nat) :
    ∀ e ∈ (driveHandler.info env r (State.init s) username bytes).log, e.dirPage = none := by
  unfold driveHandler.info
  simp only [State.MakeNonChunkRequest_fst]
  repeat' split
  all_goals simp [Event.dirPage]

/-- Every directory page a run of `driveHandler` hands to the template is the
page `directoryPage` builds for the escaped path of the request and some
listing. -/
theorem driveHandler_dirPage (env : Env σ) (r : Request) (s : σ) :
    ∀ e ∈ (driveHandler env r s).log, ∀ page, e.dirPage = some page →
      ∃ list, directoryPage env.toLower r.EscapedPath list = some page := by
  have hnone : ∀ st : State σ, (∀ e ∈ st.log, e.dirPage = none) →
      ∀ e ∈ st.log, ∀ page, e.dirPage = some page →
        ∃ list, directoryPage env.toLower r.EscapedPath list = some page := by
    intro st h e he page hpage
    rw [h e he] at hpage
    exact absurd hpage (by simp)
  unfold driveHandler
  simp only
  split
  · apply hnone; simp [Event.dirPage]
  · split
    · apply hnone; simp [Event.dirPage]
    · split
      · apply hnone; simp [Event.dirPage]
      · rename_i driveName path _
        split
        · apply hnone; simp [Event.dirPage]
        · split
          · apply hnone; simp [Event.dirPage]
          · split
            · exact hnone _ (info_dirPage env r s _ _)
            · split
              · unfold driveHandler.stat
                simp only [State.MakeNonChunkRequest_fst]
                have hlog0 : ∀ e ∈ ((State.init s).MakeNonChunkRequest env
                    ⟨Auth.session (getAuth env r).1
                      (env.MarshalBinary (getAuth env r).2.1).1,
                      "stat", [("paths", Param.strs [stringsJoin path]),
                        ("drive", Param.str driveName)], 5⟩).2.log, e.dirPage = none := by
                  simp [Event.dirPage]
                split
                · apply hnone; simp [Event.dirPage]
                · split
                  · apply hnone
                    split <;> simp [Event.dirPage]
                  · split
                    · apply hnone; simp [Event.dirPage]
                    · split
                      · split
                        · apply hnone; simp [Event.dirPage]
                        · split
                          · exact hnone _ (file_dirPage env r _ _ _ _ _ hlog0)
                          · exact dir_dirPage env r _ _ _ _ _ hlog0
                      · apply hnone; simp [Event.dirPage]
              · apply hnone; simp

/-- C10, as the code behaves: for every run of `driveHandler` on a request
whose escaped URL path is p = `/drive/<s1>/.../<sn>` (n >= 1, plain
segments), the directory page handed to the template has `CurrentPath` equal
to p, `Previous` equal to `drive/<s1>/.../<s(n-1)>`, the parent path without
its leading slash, and every entry with a plain name has `Path` equal to p,
`/` and the name. -/
theorem directoryPage_paths (env : Env σ) (r : Request) (s : σ) (segs : List String)
    (hp : r.EscapedPath = drivePath segs) (hne : segs ≠ []) (hsegs : ∀ x ∈ segs, plainName x)
    (page : DirectoryPage) (h : Event.Execute (Page.dir page) ∈ (driveHandler env r s).log) :
    page.CurrentPath = drivePath segs ∧
    page.Previous = stringsJoin ("drive" :: segs.dropLast) ∧
    ∀ item ∈ page.Dirs ++ page.Files, plainName item.Name →
      item.Path = drivePath segs ++ "/" ++ item.Name := by
  obtain ⟨list, hlist⟩ := driveHandler_dirPage env r s _ h page rfl
  rw [hp] at hlist
  exact directoryPage_spec env.toLower segs list page hne hsegs hlist

end DirPage

/-- C10 as stated fails at `GET /drive/d/x` for an empty directory: the page
handed to the template has `Previous` equal to `drive/d`, not `/drive/d`. -/
theorem directoryPage_previous_as_stated_fails :
    (driveHandler scriptEnv (request "GET" "/drive/d/x" sessionCookies)
      [statDirX, Reply.response 0 "" [("list", Value.list [])]]).log.filterMap Event.dirPage
      = [{ CurrentPath := "/drive/d/x", Previous := "drive/d", Dirs := [], Files := [] }] ∧
    "drive/d" ≠ drivePath ["d"] := by
  decide

/-- C10 at `GET /drive/d/x` for a directory with the file `b.txt` and the
directory `a`. -/
theorem directoryPage_paths_witness :
    (driveHandler scriptEnv (request "GET" "/drive/d/x" sessionCookies)
      [statDirX, Reply.response 0 "" [("list", Value.list exampleListing)]]).log.filterMap
      Event.dirPage = [examplePage] ∧
    examplePage.CurrentPath = drivePath ["d", "x"] ∧
    examplePage.Previous = stringsJoin ("drive" :: ["d", "x"].dropLast) ∧
    ∀ item ∈ examplePage.Dirs ++ examplePage.Files, plainName item.Name →
      item.Path = drivePath ["d", "x"] ++ "/" ++ item.Name :=
  ⟨by decide,
    directoryPage_paths scriptEnv (request "GET" "/drive/d/x" sessionCookies)
      [statDirX, Reply.response 0 "" [("list", Value.list exampleListing)]] ["d", "x"]
      (by decide) (by decide) (by decide) examplePage (List.getElem?_mem (n := 2) rfl)⟩

end LilyHttp
